import Mathlib

/-!
# Yaw monitoring (`yaw.c`): quadrature decoder, wraparound counter, reference latch

A shallow embedding of `src/yaw.c`.  The file-scope variables of the C module
become the fields of `YawState`; every C function that reads or writes them
becomes a function on `YawState`.

Conventions of the embedding:

* `int16_t` objects (`yawCounter`, `refYaw`, the return value of
  `getYawDegrees`) hold mathematical integers; every store of an `int`
  expression into an `int16_t` goes through `wrap16`, the conversion to
  `int16_t` (reduction modulo `2^16` into `[-32768, 32767]`).
* Expressions of type `int` are 32 bits wide. The products of the macros in
  `yawConstrain` and `getYawDegrees` and the sums and differences built from
  them go through `wrap32` (reduction modulo `2^32` into
  `[-2147483648, 2147483647]`, what the target computes when a product does
  not fit); `yawCounter + 1` and `yawCounter - 1` on a promoted `int16_t` always
  fit. `/` on `int` is `Int.tdiv` (truncation toward zero); a zero divisor,
  which C leaves undefined, gives `0` in `Int.tdiv`, and every statement about
  the value of `getYawDegrees` assumes `4 * DISC_SLOTS` positive and
  representable.
* The macros `DISC_SLOTS` and `DEGREES_PER_REV` come from `yaw.h`, which is not
  part of the sources; they are the two fields of `YawConfig`.
* The interrupt status word returned by `GPIOIntStatus` is an input of
  `GPIOBIntHandler`; the enable bit of the port C pin 4 interrupt, written by
  `GPIOIntEnable` / `GPIOIntDisable`, is the field `pc4IntEnabled`.
* `GPIOIntClear` only acknowledges a pending interrupt in the peripheral and
  has no counterpart in `YawState`; the peripheral set-up of `initGPIO` and
  `initRefGPIO` writes none of the variables and leaves the port C pin 4
  enable bit alone, so both are the identity on `YawState`.
* Each handler runs to completion: one run is one function application.
-/

namespace Yaw

/-! ## Data model -/

/-- The two macros of `yaw.h` used by `yaw.c`, both constants of type `int`. -/
structure YawConfig where
  /-- `DISC_SLOTS`: number of slots on the encoder disc. -/
  DISC_SLOTS : Int
  /-- `DEGREES_PER_REV`: degrees in one revolution. -/
  DEGREES_PER_REV : Int
  deriving DecidableEq, Repr

/-- The file-scope variables of `yaw.c` (lines 17-26) together with the enable
bit of the port C pin 4 interrupt. -/
structure YawState where
  /-- `static volatile int16_t yawCounter`. -/
  yawCounter : Int
  /-- `static volatile int16_t refYaw`. -/
  refYaw : Int
  /-- `volatile bool refYawFlag`. -/
  refYawFlag : Bool
  /-- `static volatile bool aState`. -/
  aState : Bool
  /-- `static volatile bool bState`. -/
  bState : Bool
  /-- Interrupt enable bit of `GPIO_PORTC_BASE`, `GPIO_INT_PIN_4`. -/
  pc4IntEnabled : Bool
  deriving DecidableEq, Repr

/-- Pin mask `GPIO_PIN_0` of `driverlib/gpio.h` (channel A). -/
def GPIO_PIN_0 : Nat := 0x00000001

/-- Pin mask `GPIO_PIN_1` of `driverlib/gpio.h` (channel B). -/
def GPIO_PIN_1 : Nat := 0x00000002

/-- Conversion of an `int` value to `int16_t`. -/
def wrap16 (x : Int) : Int := (x + 32768) % 65536 - 32768

/-- Reduction of an `int` result to 32 bits. -/
def wrap32 (x : Int) : Int := (x + 2147483648) % 4294967296 - 2147483648

/-- The values an `int16_t` object can hold. -/
def isInt16 (x : Int) : Prop := -32768 ≤ x ∧ x ≤ 32767

instance (x : Int) : Decidable (isInt16 x) := by
  unfold isInt16; infer_instance

/-- The wraparound window `-2*SLOTS < v <= 2*SLOTS` of the counter. -/
def inWindow (cfg : YawConfig) (v : Int) : Prop :=
  -2 * cfg.DISC_SLOTS < v ∧ v ≤ 2 * cfg.DISC_SLOTS

instance (cfg : YawConfig) (v : Int) : Decidable (inWindow cfg v) := by
  unfold inWindow; infer_instance

/-- Values of the variables at program start: the static initialisers of
lines 18-26 (`bool` objects without initialiser start as `false`) and the reset
state of the interrupt enable bit. -/
def powerOn : YawState :=
  { yawCounter := 0, refYaw := 0, refYawFlag := false,
    aState := false, bState := false, pc4IntEnabled := false }

/-! ## Operations -/

/-- `initYawStates` (lines 54-58); `portA` and `portB` are the two values
returned by `GPIOPinRead`. -/
def initYawStates (portA portB : Nat) (s : YawState) : YawState :=
  { s with aState := decide (portA &&& 1 ≠ 0),
           bState := decide ((portB >>> 1) &&& 1 ≠ 0) }

/-- `yawConstrain` (lines 96-103). -/
def yawConstrain (cfg : YawConfig) (s : YawState) : YawState :=
  if s.yawCounter > wrap32 (cfg.DISC_SLOTS * 2) then
    { s with yawCounter := wrap16 (wrap32 (s.yawCounter - wrap32 (cfg.DISC_SLOTS * 4))) }
  else if s.yawCounter ≤ wrap32 (-2 * cfg.DISC_SLOTS) then
    { s with yawCounter := wrap16 (wrap32 (s.yawCounter + wrap32 (cfg.DISC_SLOTS * 4))) }
  else
    s

/-- Lines 68-82 of `GPIOBIntHandler`: the update of the channel state and of
the counter, before `yawConstrain` runs. -/
def quadratureUpdate (status : Nat) (s : YawState) : YawState :=
  if status &&& GPIO_PIN_0 ≠ 0 then
    let s1 := { s with aState := !s.aState }
    if s1.aState != s1.bState then
      { s1 with yawCounter := wrap16 (s1.yawCounter - 1) }
    else
      { s1 with yawCounter := wrap16 (s1.yawCounter + 1) }
  else
    let s1 := { s with bState := !s.bState }
    if s1.aState != s1.bState then
      { s1 with yawCounter := wrap16 (s1.yawCounter + 1) }
    else
      { s1 with yawCounter := wrap16 (s1.yawCounter - 1) }

/-- `GPIOBIntHandler` (lines 63-84); `status` is the value returned by
`GPIOIntStatus(GPIO_PORTB_BASE, true)`. -/
def GPIOBIntHandler (cfg : YawConfig) (status : Nat) (s : YawState) : YawState :=
  yawConstrain cfg (quadratureUpdate status s)

/-- `getYawDegrees` (lines 107-110): the product and the divisor are `int`
expressions, the quotient is converted to the `int16_t` return type. -/
def getYawDegrees (cfg : YawConfig) (s : YawState) : Int :=
  wrap16 (Int.tdiv (wrap32 (s.yawCounter * cfg.DEGREES_PER_REV)) (wrap32 (4 * cfg.DISC_SLOTS)))

/-- `refYawIntHandler` (lines 87-93). -/
def refYawIntHandler (cfg : YawConfig) (s : YawState) : YawState :=
  { s with refYaw := getYawDegrees cfg s, refYawFlag := true, pc4IntEnabled := false }

/-- `getRefYaw` (lines 114-116). -/
def getRefYaw (s : YawState) : Int := s.refYaw

/-- `enableRefYawInt` (lines 119-122). -/
def enableRefYawInt (s : YawState) : YawState :=
  { s with pc4IntEnabled := true }

/-- The decoder run on a sequence of interrupts, one status word per run of
`GPIOBIntHandler`, oldest first. -/
def runEvents (cfg : YawConfig) (events : List Nat) (s : YawState) : YawState :=
  events.foldl (fun st status => GPIOBIntHandler cfg status st) s

/-- A strictly alternating sequence of `n` channel events, as status words:
`A, B, A, B, ...` when `aFirst` is `true`, `B, A, B, A, ...` otherwise. -/
def alternating (aFirst : Bool) : Nat → List Nat
  | 0 => []
  | n + 1 => (if aFirst then GPIO_PIN_0 else GPIO_PIN_1) :: alternating (!aFirst) n

/-- The counter value `yawConstrain` stores for the counter value `v`. -/
def constrainVal (cfg : YawConfig) (v : Int) : Int :=
  if v > wrap32 (cfg.DISC_SLOTS * 2) then wrap16 (wrap32 (v - wrap32 (cfg.DISC_SLOTS * 4)))
  else if v ≤ wrap32 (-2 * cfg.DISC_SLOTS) then
    wrap16 (wrap32 (v + wrap32 (cfg.DISC_SLOTS * 4)))
  else v

/-- The counter value after one decoder run that takes the `++` branch
(`up = true`) or the `--` branch (`up = false`). -/
def stepVal (cfg : YawConfig) (up : Bool) (v : Int) : Int :=
  constrainVal cfg (wrap16 (if up then v + 1 else v - 1))

/-- Whether the next decoder run takes the `++` branch, for a channel A event
(`isA = true`) or a channel B event. -/
def stepsUp (isA : Bool) (s : YawState) : Bool :=
  if isA then (!s.aState) == s.bState else s.aState != (!s.bState)

/-- `initGPIO` (lines 29-39): set-up of port B (pin type, pad, edge type,
`GPIOIntEnable` for port B pins 0 and 1, handler registration). None of the
calls writes a variable of `yaw.c` or the port C pin 4 enable bit. -/
def initGPIO (s : YawState) : YawState := s

/-- `initRefGPIO` (lines 42-51): set-up of port C pin 4 (pin type, pad, edge
type, handler registration). It does not call `GPIOIntEnable`. -/
def initRefGPIO (s : YawState) : YawState := s

/-- A call of one of the functions of `yaw.c`, with the values it receives from
the peripheral. -/
inductive YawCall where
  /-- `initGPIO()`. -/
  | portBSetup
  /-- `initRefGPIO()`. -/
  | portCSetup
  /-- `initYawStates()`, with the two values read by `GPIOPinRead`. -/
  | readChannels (portA portB : Nat)
  /-- `GPIOBIntHandler()`, with the interrupt status word. -/
  | decoderEvent (status : Nat)
  /-- `refYawIntHandler()`. -/
  | referenceEdge
  /-- `yawConstrain()`. -/
  | constrain
  /-- `getYawDegrees()`. -/
  | readYawDegrees
  /-- `getRefYaw()`. -/
  | readRefYaw
  /-- `enableRefYawInt()`. -/
  | rearm
  deriving DecidableEq, Repr

/-- The state after a call; the two getters only read. -/
def YawCall.run (cfg : YawConfig) : YawCall → YawState → YawState
  | .portBSetup, s => initGPIO s
  | .portCSetup, s => initRefGPIO s
  | .readChannels portA portB, s => initYawStates portA portB s
  | .decoderEvent status, s => GPIOBIntHandler cfg status s
  | .referenceEdge, s => refYawIntHandler cfg s
  | .constrain, s => yawConstrain cfg s
  | .readYawDegrees, s => s
  | .readRefYaw, s => s
  | .rearm, s => enableRefYawInt s

/-- A sequence of calls, oldest first. -/
def runCalls (cfg : YawConfig) (calls : List YawCall) (s : YawState) : YawState :=
  calls.foldl (fun st c => c.run cfg st) s

/-- The latch is Armed when the port C pin 4 interrupt is enabled. -/
def referenceArmed (s : YawState) : Bool := s.pc4IntEnabled

/-- The decoder step on unbounded integers and without wraparound: the channel
named by the status word is negated and the truth table of lines 68-82 adds or
subtracts one. -/
def unconstrainedStep (status : Nat) (s : YawState) : YawState :=
  if status &&& GPIO_PIN_0 ≠ 0 then
    let s1 := { s with aState := !s.aState }
    if s1.aState != s1.bState then
      { s1 with yawCounter := s1.yawCounter - 1 }
    else
      { s1 with yawCounter := s1.yawCounter + 1 }
  else
    let s1 := { s with bState := !s.bState }
    if s1.aState != s1.bState then
      { s1 with yawCounter := s1.yawCounter + 1 }
    else
      { s1 with yawCounter := s1.yawCounter - 1 }

/-- The unconstrained sum `v0 + increments - decrements` over a sequence of
decoder events, kept in `yawCounter`. -/
def unconstrainedRun (events : List Nat) (s : YawState) : YawState :=
  events.foldl (fun st status => unconstrainedStep status st) s

/-- The signed modulo of the specification (section 4.2): the representative
of `x` modulo `4*SLOTS` in `(-2*SLOTS, 2*SLOTS]`. -/
def specSignedModulo (cfg : YawConfig) (x : Int) : Int :=
  (x + 2 * cfg.DISC_SLOTS - 1) % (4 * cfg.DISC_SLOTS) - 2 * cfg.DISC_SLOTS + 1

/-- The values a 32-bit `int` can hold. -/
def isInt32 (x : Int) : Prop := -2147483648 ≤ x ∧ x ≤ 2147483647

instance (x : Int) : Decidable (isInt32 x) := by
  unfold isInt32; infer_instance

/-! ## Basic facts about the decoder step -/

theorem wrap16_of_isInt16 {x : Int} (h : isInt16 x) : wrap16 x = x := by
  unfold isInt16 at h
  unfold wrap16
  omega

theorem isInt16_wrap16 (x : Int) : isInt16 (wrap16 x) := by
  unfold isInt16 wrap16
  omega

theorem wrap32_of_isInt32 {x : Int} (h : isInt32 x) : wrap32 x = x := by
  unfold isInt32 at h
  unfold wrap32
  omega

theorem wrap16_wrap32 (x : Int) : wrap16 (wrap32 x) = wrap16 x := by
  unfold wrap16 wrap32
  omega

/-- While `4 * DISC_SLOTS` is representable in `int`, the `int` expressions of
`yawConstrain` and the divisor of `getYawDegrees` have their exact values. -/
theorem slots_fit (cfg : YawConfig) (hS : 0 < cfg.DISC_SLOTS)
    (hmax : 4 * cfg.DISC_SLOTS ≤ 2147483647) :
    wrap32 (cfg.DISC_SLOTS * 2) = cfg.DISC_SLOTS * 2 ∧
    wrap32 (-2 * cfg.DISC_SLOTS) = -2 * cfg.DISC_SLOTS ∧
    wrap32 (cfg.DISC_SLOTS * 4) = cfg.DISC_SLOTS * 4 ∧
    wrap32 (4 * cfg.DISC_SLOTS) = 4 * cfg.DISC_SLOTS := by
  refine ⟨wrap32_of_isInt32 ?_, wrap32_of_isInt32 ?_, wrap32_of_isInt32 ?_,
    wrap32_of_isInt32 ?_⟩ <;> (unfold isInt32; omega)

/-- The value `yawConstrain` stores while `4 * DISC_SLOTS` is representable. -/
theorem constrainVal_of_fits (cfg : YawConfig) (hS : 0 < cfg.DISC_SLOTS)
    (hmax : 4 * cfg.DISC_SLOTS ≤ 2147483647) (v : Int) :
    constrainVal cfg v =
      if v > cfg.DISC_SLOTS * 2 then wrap16 (v - cfg.DISC_SLOTS * 4)
      else if v ≤ -2 * cfg.DISC_SLOTS then wrap16 (v + cfg.DISC_SLOTS * 4)
      else v := by
  obtain ⟨e1, e2, e3, _⟩ := slots_fit cfg hS hmax
  unfold constrainVal
  rw [e1, e2, e3, wrap16_wrap32, wrap16_wrap32]

/-- The counter after one decoder run is the constrained, stepped counter. -/
theorem quadratureUpdate_yawCounter (status : Nat) (s : YawState) :
    (quadratureUpdate status s).yawCounter = wrap16 (s.yawCounter - 1) ∨
    (quadratureUpdate status s).yawCounter = wrap16 (s.yawCounter + 1) := by
  unfold quadratureUpdate
  by_cases h : status &&& GPIO_PIN_0 ≠ 0
  · by_cases h2 : ((!s.aState) != s.bState) = true
    · left; simp [h, h2]
    · right; simp [h, h2]
  · by_cases h2 : (s.aState != (!s.bState)) = true
    · right; simp [h, h2]
    · left; simp [h, h2]

theorem yawConstrain_yawCounter (cfg : YawConfig) (hS : 0 < cfg.DISC_SLOTS)
    (hmax : 4 * cfg.DISC_SLOTS ≤ 2147483647) (s : YawState) :
    (yawConstrain cfg s).yawCounter =
      if s.yawCounter > cfg.DISC_SLOTS * 2 then wrap16 (s.yawCounter - cfg.DISC_SLOTS * 4)
      else if s.yawCounter ≤ -2 * cfg.DISC_SLOTS then wrap16 (s.yawCounter + cfg.DISC_SLOTS * 4)
      else s.yawCounter := by
  rw [← constrainVal_of_fits cfg hS hmax]
  unfold yawConstrain constrainVal
  split
  · rfl
  · split <;> rfl

/-- One decoder run keeps an in-window counter in the window, provided the
window fits `int16_t`. -/
theorem GPIOBIntHandler_inWindow (cfg : YawConfig) (hS : 0 < cfg.DISC_SLOTS)
    (h16 : 2 * cfg.DISC_SLOTS + 1 ≤ 32767) (status : Nat) (s : YawState)
    (hw : inWindow cfg s.yawCounter) :
    inWindow cfg (GPIOBIntHandler cfg status s).yawCounter := by
  unfold GPIOBIntHandler
  rw [yawConstrain_yawCounter cfg hS (by omega)]
  unfold inWindow at *
  rcases quadratureUpdate_yawCounter status s with h | h <;> rw [h]
  · have e : wrap16 (s.yawCounter - 1) = s.yawCounter - 1 :=
      wrap16_of_isInt16 (by unfold isInt16; omega)
    rw [e]
    split_ifs with h1 h2
    · omega
    · have e2 : wrap16 (s.yawCounter - 1 + cfg.DISC_SLOTS * 4) =
          s.yawCounter - 1 + cfg.DISC_SLOTS * 4 :=
        wrap16_of_isInt16 (by unfold isInt16; omega)
      rw [e2]; omega
    · omega
  · have e : wrap16 (s.yawCounter + 1) = s.yawCounter + 1 :=
      wrap16_of_isInt16 (by unfold isInt16; omega)
    rw [e]
    split_ifs with h1 h2
    · have e2 : wrap16 (s.yawCounter + 1 - cfg.DISC_SLOTS * 4) =
          s.yawCounter + 1 - cfg.DISC_SLOTS * 4 :=
        wrap16_of_isInt16 (by unfold isInt16; omega)
      rw [e2]; omega
    · omega
    · omega

theorem runEvents_inWindow (cfg : YawConfig) (hS : 0 < cfg.DISC_SLOTS)
    (h16 : 2 * cfg.DISC_SLOTS + 1 ≤ 32767) (events : List Nat) :
    ∀ s : YawState, inWindow cfg s.yawCounter →
      inWindow cfg (runEvents cfg events s).yawCounter := by
  induction events with
  | nil => intro s hs; exact hs
  | cons e es ih =>
    intro s hs
    exact ih _ (GPIOBIntHandler_inWindow cfg hS h16 e s hs)


/-! ## The decoder run as a step of the counter -/

theorem YawState.eq_of_fields (s t : YawState) (h1 : s.yawCounter = t.yawCounter)
    (h2 : s.refYaw = t.refYaw) (h3 : s.refYawFlag = t.refYawFlag)
    (h4 : s.aState = t.aState) (h5 : s.bState = t.bState)
    (h6 : s.pc4IntEnabled = t.pc4IntEnabled) : s = t := by
  cases s; cases t; simp_all

theorem yawConstrain_eq (cfg : YawConfig) (s : YawState) :
    yawConstrain cfg s = { s with yawCounter := constrainVal cfg s.yawCounter } := by
  unfold yawConstrain constrainVal
  split
  · rfl
  · split <;> rfl

theorem status_of_channel (isA : Bool) :
    ((if isA then GPIO_PIN_0 else GPIO_PIN_1) &&& GPIO_PIN_0 ≠ 0) ↔ isA = true := by
  cases isA <;> decide

/-- One decoder run for a channel event: the channel's state is negated and the
counter takes one constrained step in the direction `stepsUp` gives. -/
theorem GPIOBIntHandler_channel (cfg : YawConfig) (isA : Bool) (s : YawState) :
    GPIOBIntHandler cfg (if isA then GPIO_PIN_0 else GPIO_PIN_1) s =
      { s with aState := if isA then !s.aState else s.aState,
               bState := if isA then s.bState else !s.bState,
               yawCounter := stepVal cfg (stepsUp isA s) s.yawCounter } := by
  unfold GPIOBIntHandler
  rw [yawConstrain_eq]
  cases isA <;> cases ha : s.aState <;> cases hb : s.bState <;>
    simp [quadratureUpdate, stepVal, stepsUp, ha, hb, GPIO_PIN_0, GPIO_PIN_1]

theorem stepsUp_after (cfg : YawConfig) (isA : Bool) (s : YawState) :
    stepsUp (!isA) (GPIOBIntHandler cfg (if isA then GPIO_PIN_0 else GPIO_PIN_1) s) =
      stepsUp isA s := by
  rw [GPIOBIntHandler_channel]
  cases isA <;> cases ha : s.aState <;> cases hb : s.bState <;> simp [stepsUp, ha, hb]

/-- Strictly alternating events all step the counter in the same direction. -/
theorem runEvents_alternating_yawCounter (cfg : YawConfig) (n : Nat) :
    ∀ (isA : Bool) (s : YawState),
      (runEvents cfg (alternating isA n) s).yawCounter =
        (stepVal cfg (stepsUp isA s))^[n] s.yawCounter := by
  induction n with
  | zero => intro isA s; rfl
  | succ n ih =>
    intro isA s
    show (runEvents cfg (alternating (!isA) n)
        (GPIOBIntHandler cfg (if isA then GPIO_PIN_0 else GPIO_PIN_1) s)).yawCounter = _
    rw [ih, stepsUp_after, Function.iterate_succ_apply]
    congr 1
    rw [GPIOBIntHandler_channel]

/-- One decoder run never touches the reference latch. -/
theorem GPIOBIntHandler_frame (cfg : YawConfig) (status : Nat) (s : YawState) :
    (GPIOBIntHandler cfg status s).refYaw = s.refYaw ∧
    (GPIOBIntHandler cfg status s).refYawFlag = s.refYawFlag ∧
    (GPIOBIntHandler cfg status s).pc4IntEnabled = s.pc4IntEnabled := by
  unfold GPIOBIntHandler
  rw [yawConstrain_eq]
  unfold quadratureUpdate
  by_cases h : status &&& GPIO_PIN_0 ≠ 0 <;> cases ha : s.aState <;> cases hb : s.bState <;>
    simp [h, ha, hb]

/-- The decoder never touches the reference latch. -/
theorem runEvents_frame (cfg : YawConfig) (events : List Nat) :
    ∀ s : YawState,
      (runEvents cfg events s).refYaw = s.refYaw ∧
      (runEvents cfg events s).refYawFlag = s.refYawFlag ∧
      (runEvents cfg events s).pc4IntEnabled = s.pc4IntEnabled := by
  induction events with
  | nil => intro s; exact ⟨rfl, rfl, rfl⟩
  | cons e es ih =>
    intro s
    show (runEvents cfg es (GPIOBIntHandler cfg e s)).refYaw = _ ∧
      (runEvents cfg es (GPIOBIntHandler cfg e s)).refYawFlag = _ ∧
      (runEvents cfg es (GPIOBIntHandler cfg e s)).pc4IntEnabled = _
    obtain ⟨h1, h2, h3⟩ := ih (GPIOBIntHandler cfg e s)
    obtain ⟨g1, g2, g3⟩ := GPIOBIntHandler_frame cfg e s
    rw [h1, h2, h3, g1, g2, g3]
    exact ⟨rfl, rfl, rfl⟩

/-- Four strictly alternating events negate each channel state twice. -/
theorem runEvents_alternating_channels (cfg : YawConfig) (k : Nat) :
    ∀ (isA : Bool) (s : YawState),
      (runEvents cfg (alternating isA (4 * k)) s).aState = s.aState ∧
      (runEvents cfg (alternating isA (4 * k)) s).bState = s.bState := by
  induction k with
  | zero => intro isA s; exact ⟨rfl, rfl⟩
  | succ k ih =>
    intro isA s
    have e : 4 * (k + 1) = 4 * k + 1 + 1 + 1 + 1 := by ring
    rw [e]
    simp only [alternating, runEvents, List.foldl_cons, Bool.not_not]
    have h := ih isA
      (GPIOBIntHandler cfg (if (!isA) = true then GPIO_PIN_0 else GPIO_PIN_1)
        (GPIOBIntHandler cfg (if isA = true then GPIO_PIN_0 else GPIO_PIN_1)
          (GPIOBIntHandler cfg (if (!isA) = true then GPIO_PIN_0 else GPIO_PIN_1)
            (GPIOBIntHandler cfg (if isA = true then GPIO_PIN_0 else GPIO_PIN_1) s))))
    simp only [runEvents] at h
    rw [h.1, h.2]
    simp only [GPIOBIntHandler_channel]
    cases isA <;> simp

/-! ## Closed forms for repeated steps in one direction -/

/-- While the window fits `int16_t`, an upward step from an in-window counter
adds one and wraps from `2*SLOTS` to `-2*SLOTS+1`. -/
theorem stepVal_up_of_inWindow (cfg : YawConfig) (hS : 0 < cfg.DISC_SLOTS)
    (h16 : cfg.DISC_SLOTS ≤ 16383) (v : Int) (hw : inWindow cfg v) :
    stepVal cfg true v = if v + 1 ≤ 2 * cfg.DISC_SLOTS then v + 1
      else v + 1 - 4 * cfg.DISC_SLOTS := by
  unfold inWindow at hw
  unfold stepVal
  rw [constrainVal_of_fits cfg hS (by omega)]
  have e : wrap16 (v + 1) = v + 1 := wrap16_of_isInt16 (by unfold isInt16; omega)
  simp only [if_true, e]
  by_cases h : v + 1 ≤ 2 * cfg.DISC_SLOTS
  · have h1 : ¬ v + 1 > cfg.DISC_SLOTS * 2 := by omega
    have h2 : ¬ v + 1 ≤ -2 * cfg.DISC_SLOTS := by omega
    simp only [h, h1, h2, if_true, if_false]
  · have h1 : v + 1 > cfg.DISC_SLOTS * 2 := by omega
    have e2 : wrap16 (v + 1 - cfg.DISC_SLOTS * 4) = v + 1 - 4 * cfg.DISC_SLOTS := by
      rw [wrap16_of_isInt16 (by unfold isInt16; omega)]; omega
    simp only [h, h1, if_true, if_false, e2]

/-- While the window fits `int16_t`, a downward step from an in-window counter
subtracts one and wraps from `-2*SLOTS+1` to `2*SLOTS`. -/
theorem stepVal_down_of_inWindow (cfg : YawConfig) (hS : 0 < cfg.DISC_SLOTS)
    (h16 : cfg.DISC_SLOTS ≤ 16383) (v : Int) (hw : inWindow cfg v) :
    stepVal cfg false v = if -2 * cfg.DISC_SLOTS < v - 1 then v - 1
      else v - 1 + 4 * cfg.DISC_SLOTS := by
  unfold inWindow at hw
  unfold stepVal
  rw [constrainVal_of_fits cfg hS (by omega)]
  have e : wrap16 (v - 1) = v - 1 := wrap16_of_isInt16 (by unfold isInt16; omega)
  simp only [Bool.false_eq_true, if_false, e]
  by_cases h : -2 * cfg.DISC_SLOTS < v - 1
  · have h1 : ¬ v - 1 > cfg.DISC_SLOTS * 2 := by omega
    have h2 : ¬ v - 1 ≤ -2 * cfg.DISC_SLOTS := by omega
    simp only [h, h1, h2, if_true, if_false]
  · have h1 : ¬ v - 1 > cfg.DISC_SLOTS * 2 := by omega
    have h2 : v - 1 ≤ -2 * cfg.DISC_SLOTS := by omega
    have e2 : wrap16 (v - 1 + cfg.DISC_SLOTS * 4) = v - 1 + 4 * cfg.DISC_SLOTS := by
      rw [wrap16_of_isInt16 (by unfold isInt16; omega)]; omega
    simp only [h, h1, h2, if_true, if_false, e2]

theorem iterate_up_of_inWindow (cfg : YawConfig) (hS : 0 < cfg.DISC_SLOTS)
    (h16 : cfg.DISC_SLOTS ≤ 16383) (v : Int) (hw : inWindow cfg v) (k : Nat) :
    (k : Int) ≤ 4 * cfg.DISC_SLOTS →
      (stepVal cfg true)^[k] v =
        if v + k ≤ 2 * cfg.DISC_SLOTS then v + k else v + k - 4 * cfg.DISC_SLOTS := by
  unfold inWindow at hw
  induction k with
  | zero =>
    intro _
    have h : v + ((0 : Nat) : Int) ≤ 2 * cfg.DISC_SLOTS := by omega
    simp only [Function.iterate_zero, id, h, if_true]; omega
  | succ k ih =>
    intro hk
    rw [Function.iterate_succ_apply', ih (by omega)]
    by_cases h : v + (k : Int) ≤ 2 * cfg.DISC_SLOTS
    · simp only [h, if_true]
      rw [stepVal_up_of_inWindow cfg hS h16 _ (by unfold inWindow; omega)]
      split_ifs <;> omega
    · simp only [h, if_false]
      rw [stepVal_up_of_inWindow cfg hS h16 _ (by unfold inWindow; omega)]
      split_ifs <;> omega

theorem iterate_down_of_inWindow (cfg : YawConfig) (hS : 0 < cfg.DISC_SLOTS)
    (h16 : cfg.DISC_SLOTS ≤ 16383) (v : Int) (hw : inWindow cfg v) (k : Nat) :
    (k : Int) ≤ 4 * cfg.DISC_SLOTS →
      (stepVal cfg false)^[k] v =
        if -2 * cfg.DISC_SLOTS < v - k then v - k else v - k + 4 * cfg.DISC_SLOTS := by
  unfold inWindow at hw
  induction k with
  | zero =>
    intro _
    have h : -2 * cfg.DISC_SLOTS < v - ((0 : Nat) : Int) := by omega
    simp only [Function.iterate_zero, id, h, if_true]; omega
  | succ k ih =>
    intro hk
    rw [Function.iterate_succ_apply', ih (by omega)]
    by_cases h : -2 * cfg.DISC_SLOTS < v - (k : Int)
    · simp only [h, if_true]
      rw [stepVal_down_of_inWindow cfg hS h16 _ (by unfold inWindow; omega)]
      split_ifs <;> omega
    · simp only [h, if_false]
      rw [stepVal_down_of_inWindow cfg hS h16 _ (by unfold inWindow; omega)]
      split_ifs <;> omega

/-- From `DISC_SLOTS = 16384` on, `yawConstrain` cannot change an `int16_t`
counter, so a step is the bare `int16_t` increment or decrement. -/
theorem stepVal_of_large (cfg : YawConfig) (hS : 16384 ≤ cfg.DISC_SLOTS)
    (hmax : 4 * cfg.DISC_SLOTS ≤ 2147483647) (up : Bool) (v : Int) :
    stepVal cfg up v = wrap16 (if up then v + 1 else v - 1) := by
  unfold stepVal
  rw [constrainVal_of_fits cfg (by omega) hmax]
  have hb := isInt16_wrap16 (if up then v + 1 else v - 1)
  generalize wrap16 (if up then v + 1 else v - 1) = w at hb
  unfold isInt16 at hb
  have h1 : ¬ w > cfg.DISC_SLOTS * 2 := by omega
  simp only [h1, if_false]
  by_cases h2 : w ≤ -2 * cfg.DISC_SLOTS
  · simp only [h2, if_true]
    have hw : w = -32768 := by omega
    have hS' : cfg.DISC_SLOTS = 16384 := by omega
    rw [hw, hS']; decide
  · simp only [h2, if_false]

theorem iterate_of_large (cfg : YawConfig) (hS : 16384 ≤ cfg.DISC_SLOTS)
    (hmax : 4 * cfg.DISC_SLOTS ≤ 2147483647) (up : Bool) (v : Int) (k : Nat) :
    (stepVal cfg up)^[k + 1] v = wrap16 (if up then v + (k + 1 : Nat) else v - (k + 1 : Nat)) := by
  induction k with
  | zero =>
    rw [Function.iterate_succ_apply', Function.iterate_zero, id, stepVal_of_large cfg hS hmax]
    cases up <;> simp
  | succ k ih =>
    rw [Function.iterate_succ_apply', ih, stepVal_of_large cfg hS hmax]
    cases up
    · simp only [Bool.false_eq_true, if_false]; unfold wrap16; omega
    · simp only [if_true]; unfold wrap16; omega

/-! ## Truncating division and the degree conversion -/

theorem tdiv_of_neg (a b : Int) (hb : 0 ≤ b) (ha : a < 0) : Int.tdiv a b = -((-a) / b) := by
  have h : Int.tdiv (-(-a)) b = -Int.tdiv (-a) b := Int.neg_tdiv (-a) b
  rw [neg_neg] at h
  rw [h, Int.tdiv_eq_ediv (by omega) hb]

theorem tdiv_mono (a c b : Int) (hb : 0 < b) (h : a ≤ c) : Int.tdiv a b ≤ Int.tdiv c b := by
  by_cases ha : 0 ≤ a
  · rw [Int.tdiv_eq_ediv ha (by omega), Int.tdiv_eq_ediv (by omega) (by omega)]
    exact Int.ediv_le_ediv hb h
  · by_cases hc : 0 ≤ c
    · have h1 : Int.tdiv a b ≤ 0 := by
        rw [tdiv_of_neg a b (by omega) (by omega)]
        have := Int.ediv_nonneg (show 0 ≤ -a by omega) (show 0 ≤ b by omega)
        omega
      have h2 : 0 ≤ Int.tdiv c b := Int.tdiv_nonneg hc (by omega)
      omega
    · rw [tdiv_of_neg a b (by omega) (by omega), tdiv_of_neg c b (by omega) (by omega)]
      have := Int.ediv_le_ediv hb (show -c ≤ -a by omega)
      omega

theorem tdiv_le_of_le_mul (a b n : Int) (hb : 0 < b) (h : a ≤ n * b) : Int.tdiv a b ≤ n := by
  have h1 := tdiv_mono a (n * b) b hb h
  rw [Int.mul_tdiv_cancel n (by omega)] at h1
  exact h1

theorem lt_tdiv_of_mul_lt (a b m : Int) (hb : 0 < b) (hm : 0 < m) (h : -(m * b) < a) :
    -m < Int.tdiv a b := by
  by_cases ha : 0 ≤ a
  · have := Int.tdiv_nonneg ha (show 0 ≤ b by omega)
    omega
  · rw [tdiv_of_neg a b (by omega) (by omega)]
    have := Int.ediv_lt_of_lt_mul hb (show -a < m * b by omega)
    omega

/-- With `4 * DISC_SLOTS` positive and representable, `DEGREES_PER_REV = 360` and
an `int16_t` counter that is in the window, or any `int16_t` counter once
`DISC_SLOTS >= 90`, neither the product nor the divisor wraps and the quotient
fits `int16_t`: `getYawDegrees` returns the mathematical quotient. -/
theorem getYawDegrees_exact (cfg : YawConfig) (s : YawState)
    (hS : 0 < cfg.DISC_SLOTS) (hmax : 4 * cfg.DISC_SLOTS ≤ 2147483647)
    (hD : cfg.DEGREES_PER_REV = 360) (hv : isInt16 s.yawCounter)
    (hr : inWindow cfg s.yawCounter ∨ 90 ≤ cfg.DISC_SLOTS) :
    getYawDegrees cfg s = Int.tdiv (s.yawCounter * 360) (4 * cfg.DISC_SLOTS) := by
  unfold isInt16 at hv
  unfold getYawDegrees
  rw [hD, (slots_fit cfg hS hmax).2.2.2,
    wrap32_of_isInt32 (show isInt32 (s.yawCounter * 360) by unfold isInt32; omega)]
  apply wrap16_of_isInt16
  unfold isInt16
  rcases hr with hw | h90
  · unfold inWindow at hw
    have h1 : Int.tdiv (s.yawCounter * 360) (4 * cfg.DISC_SLOTS) ≤ 180 :=
      tdiv_le_of_le_mul _ _ _ (by omega) (by omega)
    have h2 : -180 < Int.tdiv (s.yawCounter * 360) (4 * cfg.DISC_SLOTS) :=
      lt_tdiv_of_mul_lt _ _ 180 (by omega) (by omega) (by omega)
    omega
  · have h1 : Int.tdiv (s.yawCounter * 360) (4 * cfg.DISC_SLOTS) ≤ 32767 :=
      tdiv_le_of_le_mul _ _ _ (by omega) (by omega)
    have h2 : -32769 < Int.tdiv (s.yawCounter * 360) (4 * cfg.DISC_SLOTS) :=
      lt_tdiv_of_mul_lt _ _ 32769 (by omega) (by omega) (by omega)
    omega

/-- For an in-window `int16_t` counter and `DEGREES_PER_REV = 360` the quotient
lies in `(-180, 180]`, so the conversion of the return value to `int16_t`
keeps it. -/
theorem getYawDegrees_of_inWindow (cfg : YawConfig) (s : YawState)
    (hS : 0 < cfg.DISC_SLOTS) (hmax : 4 * cfg.DISC_SLOTS ≤ 2147483647)
    (hD : cfg.DEGREES_PER_REV = 360) (hv : isInt16 s.yawCounter)
    (hw : inWindow cfg s.yawCounter) :
    getYawDegrees cfg s = Int.tdiv (s.yawCounter * 360) (4 * cfg.DISC_SLOTS) ∧
    -180 < getYawDegrees cfg s ∧ getYawDegrees cfg s ≤ 180 := by
  have e := getYawDegrees_exact cfg s hS hmax hD hv (Or.inl hw)
  unfold inWindow at hw
  have h1 : Int.tdiv (s.yawCounter * 360) (4 * cfg.DISC_SLOTS) ≤ 180 :=
    tdiv_le_of_le_mul _ _ _ (by omega) (by omega)
  have h2 : -180 < Int.tdiv (s.yawCounter * 360) (4 * cfg.DISC_SLOTS) :=
    lt_tdiv_of_mul_lt _ _ 180 (by omega) (by omega) (by omega)
  rw [e]
  exact ⟨rfl, h2, h1⟩

/-- The counter after one decoder run is one constrained step away. -/
theorem GPIOBIntHandler_yawCounter (cfg : YawConfig) (status : Nat) (s : YawState) :
    ∃ up : Bool, (GPIOBIntHandler cfg status s).yawCounter = stepVal cfg up s.yawCounter := by
  unfold GPIOBIntHandler
  rw [yawConstrain_eq]
  rcases quadratureUpdate_yawCounter status s with h | h
  · exact ⟨false, by simp [stepVal, h]⟩
  · exact ⟨true, by simp [stepVal, h]⟩

/-- Whatever the configuration, the counter a decoder run stores is an
`int16_t` value. -/
theorem GPIOBIntHandler_isInt16 (cfg : YawConfig) (status : Nat) (s : YawState) :
    isInt16 (GPIOBIntHandler cfg status s).yawCounter := by
  obtain ⟨up, hup⟩ := GPIOBIntHandler_yawCounter cfg status s
  rw [hup]
  unfold stepVal constrainVal
  split_ifs <;> exact isInt16_wrap16 _

theorem runEvents_isInt16 (cfg : YawConfig) (events : List Nat) :
    ∀ s : YawState, isInt16 s.yawCounter → isInt16 (runEvents cfg events s).yawCounter := by
  induction events with
  | nil => intro s hs; exact hs
  | cons e es ih =>
    intro s _
    exact ih _ (GPIOBIntHandler_isInt16 cfg e s)

/-- Whenever `DISC_SLOTS` is not `16384` and `4 * DISC_SLOTS` is representable,
the decoder keeps an `int16_t` counter inside the window. -/
theorem runEvents_inWindow_of_ne (cfg : YawConfig) (hS : 0 < cfg.DISC_SLOTS)
    (hmax : 4 * cfg.DISC_SLOTS ≤ 2147483647)
    (hne : cfg.DISC_SLOTS ≠ 16384) (events : List Nat) :
    ∀ s : YawState, isInt16 s.yawCounter → inWindow cfg s.yawCounter →
      inWindow cfg (runEvents cfg events s).yawCounter := by
  by_cases hsm : cfg.DISC_SLOTS ≤ 16383
  · intro s _ hw
    exact runEvents_inWindow cfg hS (by omega) events s hw
  · intro s hv _
    have hi := runEvents_isInt16 cfg events s hv
    unfold isInt16 at hi
    unfold inWindow
    omega

/-! ## Calls that leave the stored reference alone -/

/-- Every call other than `refYawIntHandler` keeps `refYaw` and `refYawFlag`. -/
theorem YawCall.run_reference (cfg : YawConfig) (c : YawCall) (s : YawState)
    (h : c ≠ YawCall.referenceEdge) :
    (c.run cfg s).refYaw = s.refYaw ∧ (c.run cfg s).refYawFlag = s.refYawFlag := by
  cases c with
  | portBSetup => exact ⟨rfl, rfl⟩
  | portCSetup => exact ⟨rfl, rfl⟩
  | readChannels portA portB => exact ⟨rfl, rfl⟩
  | decoderEvent status =>
    exact ⟨(GPIOBIntHandler_frame cfg status s).1, (GPIOBIntHandler_frame cfg status s).2.1⟩
  | referenceEdge => exact absurd rfl h
  | constrain =>
    show (yawConstrain cfg s).refYaw = s.refYaw ∧ (yawConstrain cfg s).refYawFlag = s.refYawFlag
    rw [yawConstrain_eq]
    exact ⟨rfl, rfl⟩
  | readYawDegrees => exact ⟨rfl, rfl⟩
  | readRefYaw => exact ⟨rfl, rfl⟩
  | rearm => exact ⟨rfl, rfl⟩

theorem runCalls_reference (cfg : YawConfig) (calls : List YawCall) :
    ∀ s : YawState, YawCall.referenceEdge ∉ calls →
      (runCalls cfg calls s).refYaw = s.refYaw ∧
      (runCalls cfg calls s).refYawFlag = s.refYawFlag := by
  induction calls with
  | nil => intro s _; exact ⟨rfl, rfl⟩
  | cons c cs ih =>
    intro s hn
    have hc : c ≠ YawCall.referenceEdge := fun e => hn (by rw [e]; exact List.mem_cons_self _ _)
    have hcs : YawCall.referenceEdge ∉ cs := fun m => hn (List.mem_cons_of_mem _ m)
    obtain ⟨h1, h2⟩ := ih (c.run cfg s) hcs
    obtain ⟨g1, g2⟩ := YawCall.run_reference cfg c s hc
    show (runCalls cfg cs (c.run cfg s)).refYaw = _ ∧ (runCalls cfg cs (c.run cfg s)).refYawFlag = _
    rw [h1, h2, g1, g2]
    exact ⟨rfl, rfl⟩

/-! ## The decoder against the unconstrained sum -/

/-- One decoder run for any status word: only bit `GPIO_PIN_0` matters. -/
theorem GPIOBIntHandler_status (cfg : YawConfig) (status : Nat) (s : YawState) :
    GPIOBIntHandler cfg status s =
      { s with aState := if status &&& GPIO_PIN_0 ≠ 0 then !s.aState else s.aState,
               bState := if status &&& GPIO_PIN_0 ≠ 0 then s.bState else !s.bState,
               yawCounter :=
                 stepVal cfg (stepsUp (decide (status &&& GPIO_PIN_0 ≠ 0)) s) s.yawCounter } := by
  unfold GPIOBIntHandler
  rw [yawConstrain_eq]
  by_cases h : status &&& GPIO_PIN_0 ≠ 0 <;> cases ha : s.aState <;> cases hb : s.bState <;>
    simp [quadratureUpdate, stepVal, stepsUp, h, ha, hb]

theorem unconstrainedStep_status (status : Nat) (s : YawState) :
    unconstrainedStep status s =
      { s with aState := if status &&& GPIO_PIN_0 ≠ 0 then !s.aState else s.aState,
               bState := if status &&& GPIO_PIN_0 ≠ 0 then s.bState else !s.bState,
               yawCounter :=
                 if stepsUp (decide (status &&& GPIO_PIN_0 ≠ 0)) s then s.yawCounter + 1
                 else s.yawCounter - 1 } := by
  by_cases h : status &&& GPIO_PIN_0 ≠ 0 <;> cases ha : s.aState <;> cases hb : s.bState <;>
    simp [unconstrainedStep, stepsUp, h, ha, hb]

/-- The representative is unique: an in-window value congruent to `x` modulo
`4*SLOTS` is `specSignedModulo x`. -/
theorem specSignedModulo_unique (cfg : YawConfig) (x y k : Int)
    (hy : inWindow cfg y) (hk : y = x + k * (4 * cfg.DISC_SLOTS)) :
    specSignedModulo cfg x = y := by
  unfold inWindow at hy
  unfold specSignedModulo
  have e : x + 2 * cfg.DISC_SLOTS - 1 =
      (y + 2 * cfg.DISC_SLOTS - 1) + (-k) * (4 * cfg.DISC_SLOTS) := by
    rw [hk]; ring
  rw [e, Int.add_mul_emod_self, Int.emod_eq_of_lt (by omega) (by omega)]
  omega

theorem specSignedModulo_inWindow (cfg : YawConfig) (hS : 0 < cfg.DISC_SLOTS) (x : Int) :
    inWindow cfg (specSignedModulo cfg x) := by
  unfold inWindow specSignedModulo
  have h1 := Int.emod_nonneg (x + 2 * cfg.DISC_SLOTS - 1) (show 4 * cfg.DISC_SLOTS ≠ 0 by omega)
  have h2 := Int.emod_lt_of_pos (x + 2 * cfg.DISC_SLOTS - 1) (show 0 < 4 * cfg.DISC_SLOTS by omega)
  omega

/-- While the window fits `int16_t`, the decoder and the unconstrained sum stay
congruent modulo `4*SLOTS`, the channel states agree and the counter stays in
the window. -/
theorem runEvents_congruent (cfg : YawConfig) (hS : 0 < cfg.DISC_SLOTS)
    (h16 : cfg.DISC_SLOTS ≤ 16383) (events : List Nat) :
    ∀ (s t : YawState), s.aState = t.aState → s.bState = t.bState →
      inWindow cfg s.yawCounter →
      (∃ k : Int, s.yawCounter = t.yawCounter + k * (4 * cfg.DISC_SLOTS)) →
      (runEvents cfg events s).aState = (unconstrainedRun events t).aState ∧
      (runEvents cfg events s).bState = (unconstrainedRun events t).bState ∧
      inWindow cfg (runEvents cfg events s).yawCounter ∧
      (∃ k : Int, (runEvents cfg events s).yawCounter =
        (unconstrainedRun events t).yawCounter + k * (4 * cfg.DISC_SLOTS)) := by
  induction events with
  | nil => intro s t ha hb hw hk; exact ⟨ha, hb, hw, hk⟩
  | cons e es ih =>
    intro s t ha hb hw hk
    show (runEvents cfg es (GPIOBIntHandler cfg e s)).aState =
        (unconstrainedRun es (unconstrainedStep e t)).aState ∧
      (runEvents cfg es (GPIOBIntHandler cfg e s)).bState =
        (unconstrainedRun es (unconstrainedStep e t)).bState ∧
      inWindow cfg (runEvents cfg es (GPIOBIntHandler cfg e s)).yawCounter ∧
      (∃ k : Int, (runEvents cfg es (GPIOBIntHandler cfg e s)).yawCounter =
        (unconstrainedRun es (unconstrainedStep e t)).yawCounter + k * (4 * cfg.DISC_SLOTS))
    have hdir : stepsUp (decide (e &&& GPIO_PIN_0 ≠ 0)) s =
        stepsUp (decide (e &&& GPIO_PIN_0 ≠ 0)) t := by
      unfold stepsUp; rw [ha, hb]
    apply ih
    · rw [GPIOBIntHandler_status, unconstrainedStep_status]; simp only [ha]
    · rw [GPIOBIntHandler_status, unconstrainedStep_status]; simp only [hb]
    · exact GPIOBIntHandler_inWindow cfg hS (by omega) e s hw
    · obtain ⟨k, hk⟩ := hk
      rw [GPIOBIntHandler_status, unconstrainedStep_status]
      simp only [← hdir]
      cases stepsUp (decide (e &&& GPIO_PIN_0 ≠ 0)) s
      · rw [stepVal_down_of_inWindow cfg hS h16 _ hw]
        simp only [Bool.false_eq_true, if_false]
        split_ifs
        · exact ⟨k, by rw [hk]; ring⟩
        · exact ⟨k + 1, by rw [hk]; ring⟩
      · rw [stepVal_up_of_inWindow cfg hS h16 _ hw]
        simp only [if_true]
        split_ifs
        · exact ⟨k, by rw [hk]; ring⟩
        · exact ⟨k - 1, by rw [hk]; ring⟩

theorem yawConstrain_of_inWindow (cfg : YawConfig) (hS : 0 < cfg.DISC_SLOTS)
    (hmax : 4 * cfg.DISC_SLOTS ≤ 2147483647) (s : YawState)
    (hw : inWindow cfg s.yawCounter) : yawConstrain cfg s = s := by
  obtain ⟨e1, e2, _, _⟩ := slots_fit cfg hS hmax
  unfold inWindow at hw
  unfold yawConstrain
  rw [e1, e2]
  have h1 : ¬ s.yawCounter > cfg.DISC_SLOTS * 2 := by omega
  have h2 : ¬ s.yawCounter ≤ -2 * cfg.DISC_SLOTS := by omega
  simp only [h1, h2, if_false]

/-! ## Undoing a step -/

/-- A step in one direction followed by a step in the other restores an
in-window `int16_t` counter, for every positive `DISC_SLOTS`. -/
theorem stepVal_inverse (cfg : YawConfig) (hS : 0 < cfg.DISC_SLOTS)
    (hmax : 4 * cfg.DISC_SLOTS ≤ 2147483647) (v : Int)
    (hv : isInt16 v) (hw : inWindow cfg v) (up : Bool) :
    stepVal cfg (!up) (stepVal cfg up v) = v := by
  by_cases hsm : cfg.DISC_SLOTS ≤ 16383
  · unfold inWindow at hw
    cases up
    · rw [stepVal_down_of_inWindow cfg hS hsm v (by unfold inWindow; omega)]
      show stepVal cfg true _ = v
      by_cases h : -2 * cfg.DISC_SLOTS < v - 1
      · simp only [h, if_true]
        rw [stepVal_up_of_inWindow cfg hS hsm _ (by unfold inWindow; omega)]
        split_ifs <;> omega
      · simp only [h, if_false]
        rw [stepVal_up_of_inWindow cfg hS hsm _ (by unfold inWindow; omega)]
        split_ifs <;> omega
    · rw [stepVal_up_of_inWindow cfg hS hsm v (by unfold inWindow; omega)]
      show stepVal cfg false _ = v
      by_cases h : v + 1 ≤ 2 * cfg.DISC_SLOTS
      · simp only [h, if_true]
        rw [stepVal_down_of_inWindow cfg hS hsm _ (by unfold inWindow; omega)]
        split_ifs <;> omega
      · simp only [h, if_false]
        rw [stepVal_down_of_inWindow cfg hS hsm _ (by unfold inWindow; omega)]
        split_ifs <;> omega
  · rw [stepVal_of_large cfg (by omega) hmax, stepVal_of_large cfg (by omega) hmax]
    unfold isInt16 at hv
    unfold wrap16
    cases up
    · simp only [Bool.not_false, Bool.false_eq_true, if_true, if_false]; omega
    · simp only [Bool.not_true, Bool.false_eq_true, if_true, if_false]; omega

/-! ## Claims -/

/-- C1. Counter bound invariant: when `SLOTS > 0` and `2*SLOTS+1` is
representable in `int16_t`, one run of `GPIOBIntHandler`, for any status word
(channel A or channel B change) and any channel state, maps a counter with
`-2*SLOTS < yawCounter <= 2*SLOTS` to a counter in the same window; hence the
bound holds after every finite sequence of decoder events that starts with
`yawCounter = 0`. -/
theorem C1_counter_bound (cfg : YawConfig) (hS : 0 < cfg.DISC_SLOTS)
    (h16 : 2 * cfg.DISC_SLOTS + 1 ≤ 32767) :
    (∀ (status : Nat) (s : YawState), inWindow cfg s.yawCounter →
        inWindow cfg (GPIOBIntHandler cfg status s).yawCounter) ∧
    (∀ (events : List Nat) (s : YawState), s.yawCounter = 0 →
        inWindow cfg (runEvents cfg events s).yawCounter) := by
  refine ⟨fun status s hw => GPIOBIntHandler_inWindow cfg hS h16 status s hw, ?_⟩
  intro events s h0
  apply runEvents_inWindow cfg hS h16
  unfold inWindow
  rw [h0]
  omega

theorem C1_counter_bound_witness :
    (0 : Int) < 90 ∧ (2 * 90 + 1 : Int) ≤ 32767 ∧
    (∀ (events : List Nat) (s : YawState), s.yawCounter = 0 →
        inWindow ⟨90, 360⟩ (runEvents ⟨90, 360⟩ events s).yawCounter) :=
  ⟨by decide, by decide, (C1_counter_bound ⟨90, 360⟩ (by decide) (by decide)).2⟩

/-- C2 (counterexample). With `DISC_SLOTS = 16385` the window contains every
`int16_t` value, so `yawConstrain` never adjusts the counter; from
`yawCounter = 0`, `aState = bState = false`, the `4 * 16385` alternating events
`A, B, A, B, ...` all decrement, the `int16_t` counter wraps modulo `2^16`,
and it ends at `-4`, not at `0`. -/
theorem C2_round_trip_fails_at_16385 :
    (0 : Int) < 16385 ∧ inWindow ⟨16385, 360⟩ powerOn.yawCounter ∧
    isInt16 powerOn.yawCounter ∧
    (runEvents ⟨16385, 360⟩ (alternating true (4 * (16385 : Int)).toNat) powerOn).yawCounter
      = -4 ∧
    (runEvents ⟨16385, 360⟩ (alternating true (4 * (16385 : Int)).toNat) powerOn).yawCounter
      ≠ powerOn.yawCounter := by
  have e : (4 * (16385 : Int)).toNat = 65539 + 1 := by decide
  have h : (runEvents ⟨16385, 360⟩ (alternating true (4 * (16385 : Int)).toNat)
      powerOn).yawCounter = -4 := by
    rw [runEvents_alternating_yawCounter, e, iterate_of_large _ (by decide) (by decide)]
    decide
  refine ⟨by decide, by decide, by decide, h, ?_⟩
  rw [h]
  decide

/-- C2 (amended). Full-revolution round trip: for every `SLOTS` with
`0 < SLOTS <= 16384`, every in-window `int16_t` starting counter and every
starting channel state, `4*SLOTS` strictly alternating channel events
(`A, B, A, B, ...` or `B, A, B, A, ...`) return the whole state, so
`yawCounter`, `aState` and `bState`, to its starting value; and the events of
an alternating sequence of any length all step the counter in the same
direction. -/
theorem C2_round_trip (cfg : YawConfig) (s : YawState) (aFirst : Bool)
    (hS : 0 < cfg.DISC_SLOTS) (h16 : cfg.DISC_SLOTS ≤ 16384)
    (hv : isInt16 s.yawCounter) (hw : inWindow cfg s.yawCounter) :
    runEvents cfg (alternating aFirst (4 * cfg.DISC_SLOTS).toNat) s = s ∧
    (∀ n : Nat, (runEvents cfg (alternating aFirst n) s).yawCounter =
      (stepVal cfg (stepsUp aFirst s))^[n] s.yawCounter) := by
  refine ⟨?_, fun n => runEvents_alternating_yawCounter cfg n aFirst s⟩
  obtain ⟨f1, f2, f3⟩ := runEvents_frame cfg (alternating aFirst (4 * cfg.DISC_SLOTS).toNat) s
  have e4 : (4 * cfg.DISC_SLOTS).toNat = 4 * cfg.DISC_SLOTS.toNat := by omega
  have hc := runEvents_alternating_channels cfg cfg.DISC_SLOTS.toNat aFirst s
  rw [← e4] at hc
  refine YawState.eq_of_fields _ _ ?_ f1 f2 hc.1 hc.2 f3
  rw [runEvents_alternating_yawCounter]
  have hcast : (((4 * cfg.DISC_SLOTS).toNat : Nat) : Int) = 4 * cfg.DISC_SLOTS := by omega
  by_cases hsm : cfg.DISC_SLOTS ≤ 16383
  · unfold inWindow at hw
    cases stepsUp aFirst s
    · rw [iterate_down_of_inWindow cfg hS hsm _ (by unfold inWindow; omega) _ (by omega), hcast]
      split_ifs <;> omega
    · rw [iterate_up_of_inWindow cfg hS hsm _ (by unfold inWindow; omega) _ (by omega), hcast]
      split_ifs <;> omega
  · have hS' : cfg.DISC_SLOTS = 16384 := by omega
    have e : (4 * cfg.DISC_SLOTS).toNat = 65535 + 1 := by omega
    rw [e, iterate_of_large cfg (by omega) (by omega)]
    unfold isInt16 at hv
    unfold wrap16
    cases stepsUp aFirst s
    · simp only [Bool.false_eq_true, if_false]; omega
    · simp only [if_true]; omega

theorem C2_round_trip_witness :
    (0 : Int) < 90 ∧ (90 : Int) ≤ 16384 ∧ isInt16 powerOn.yawCounter ∧
    inWindow ⟨90, 360⟩ powerOn.yawCounter ∧
    runEvents ⟨90, 360⟩ (alternating true (4 * (90 : Int)).toNat) powerOn = powerOn :=
  ⟨by decide, by decide, by decide, by decide,
    (C2_round_trip ⟨90, 360⟩ powerOn true (by decide) (by decide) (by decide) (by decide)).1⟩

/-- C3 (counterexample). With `yawCounter = -32768`, `aState = bState = false`
and a channel A change, the new `aState` differs from `bState`, and the counter
before `yawConstrain` is `32767`, not `-32768 - 1`: the `int16_t` decrement
wraps. -/
theorem C3_decrement_wraps_at_int16_min :
    GPIO_PIN_0 &&& GPIO_PIN_0 ≠ 0 ∧ (!false) ≠ false ∧ isInt16 (-32768) ∧
    (quadratureUpdate GPIO_PIN_0 ⟨-32768, 0, false, false, false, false⟩).yawCounter = 32767 ∧
    (quadratureUpdate GPIO_PIN_0 ⟨-32768, 0, false, false, false, false⟩).yawCounter
      ≠ -32768 - 1 := by
  decide

/-- C3 (amended). Quadrature truth table: `GPIOBIntHandler` is
`quadratureUpdate` followed by `yawConstrain`, and for every state whose
stepped counter is representable in `int16_t`: on a channel A change the
counter before `yawConstrain` is decremented by 1 if the negated `aState`
differs from `bState` and incremented by 1 if it equals `bState`; on a channel
B change it is incremented by 1 if the negated `bState` differs from `aState`
and decremented by 1 if it equals `aState`. -/
theorem C3_truth_table (cfg : YawConfig) (status : Nat) (s : YawState) :
    GPIOBIntHandler cfg status s = yawConstrain cfg (quadratureUpdate status s) ∧
    (status &&& GPIO_PIN_0 ≠ 0 → (!s.aState) ≠ s.bState → isInt16 (s.yawCounter - 1) →
      (quadratureUpdate status s).yawCounter = s.yawCounter - 1) ∧
    (status &&& GPIO_PIN_0 ≠ 0 → (!s.aState) = s.bState → isInt16 (s.yawCounter + 1) →
      (quadratureUpdate status s).yawCounter = s.yawCounter + 1) ∧
    (status &&& GPIO_PIN_0 = 0 → (!s.bState) ≠ s.aState → isInt16 (s.yawCounter + 1) →
      (quadratureUpdate status s).yawCounter = s.yawCounter + 1) ∧
    (status &&& GPIO_PIN_0 = 0 → (!s.bState) = s.aState → isInt16 (s.yawCounter - 1) →
      (quadratureUpdate status s).yawCounter = s.yawCounter - 1) := by
  refine ⟨rfl, ?_, ?_, ?_, ?_⟩
  · intro h1 h2 h3
    have e : ((!s.aState) != s.bState) = true := by
      cases ha : s.aState <;> cases hb : s.bState <;> simp_all
    simp [quadratureUpdate, h1, e, wrap16_of_isInt16 h3]
  · intro h1 h2 h3
    have e : ((!s.aState) != s.bState) = false := by
      cases ha : s.aState <;> cases hb : s.bState <;> simp_all
    simp [quadratureUpdate, h1, e, wrap16_of_isInt16 h3]
  · intro h1 h2 h3
    have e : (s.aState != (!s.bState)) = true := by
      cases ha : s.aState <;> cases hb : s.bState <;> simp_all
    simp [quadratureUpdate, h1, e, wrap16_of_isInt16 h3]
  · intro h1 h2 h3
    have e : (s.aState != (!s.bState)) = false := by
      cases ha : s.aState <;> cases hb : s.bState <;> simp_all
    simp [quadratureUpdate, h1, e, wrap16_of_isInt16 h3]

theorem C3_truth_table_witness :
    GPIO_PIN_0 &&& GPIO_PIN_0 ≠ 0 ∧ (!powerOn.aState) ≠ powerOn.bState ∧
    isInt16 (powerOn.yawCounter - 1) ∧
    (quadratureUpdate GPIO_PIN_0 powerOn).yawCounter = powerOn.yawCounter - 1 :=
  ⟨by decide, by decide, by decide,
    (C3_truth_table ⟨90, 360⟩ GPIO_PIN_0 powerOn).2.1 (by decide) (by decide) (by decide)⟩

/-- C4 (the code at the failing input). With `DISC_SLOTS = 90`, from
`aState = bState = false` and `yawCounter = 0`: a channel A change makes the
new `aState` differ from `bState` (channel A leads) and the handler decrements
the counter to `-1`; a channel B change makes the new `bState` differ from
`aState` (channel B leads) and the handler increments the counter to `1`. -/
theorem C4_handler_steps_against_doc_comment :
    (GPIOBIntHandler ⟨90, 360⟩ GPIO_PIN_0 powerOn).aState ≠
        (GPIOBIntHandler ⟨90, 360⟩ GPIO_PIN_0 powerOn).bState ∧
    (GPIOBIntHandler ⟨90, 360⟩ GPIO_PIN_0 powerOn).yawCounter = -1 ∧
    (GPIOBIntHandler ⟨90, 360⟩ GPIO_PIN_1 powerOn).aState ≠
        (GPIOBIntHandler ⟨90, 360⟩ GPIO_PIN_1 powerOn).bState ∧
    (GPIOBIntHandler ⟨90, 360⟩ GPIO_PIN_1 powerOn).yawCounter = 1 := by
  decide

/-- C5 (counterexample). With `DISC_SLOTS = 16384` and `yawCounter = -32768`
the second branch of `yawConstrain` runs (`-32768 <= -2*16384`), and the stored
result is `-32768`, not `-32768 + 4*16384`: the sum is not representable in
`int16_t`. With `DISC_SLOTS = 1073741825` the `int` product `DISC_SLOTS * 2`
wraps to `-2147483646` and `DISC_SLOTS * 4` to `4`: the first branch runs for
the in-window counter `0` and stores `-4`. -/
theorem C5_yawConstrain_overflow_at_16384 :
    ((0 : Int) < 16384 ∧ isInt16 (-32768) ∧ (-32768 : Int) ≤ -2 * 16384 ∧
      (yawConstrain ⟨16384, 360⟩ ⟨-32768, 0, false, false, false, false⟩).yawCounter = -32768 ∧
      (yawConstrain ⟨16384, 360⟩ ⟨-32768, 0, false, false, false, false⟩).yawCounter
        ≠ -32768 + 4 * 16384) ∧
    ((0 : Int) < 1073741825 ∧ isInt16 0 ∧ inWindow ⟨1073741825, 360⟩ 0 ∧
      (yawConstrain ⟨1073741825, 360⟩ ⟨0, 0, false, false, false, false⟩).yawCounter = -4 ∧
      (yawConstrain ⟨1073741825, 360⟩ ⟨0, 0, false, false, false, false⟩).yawCounter ≠ 0) := by
  decide

/-- C5 (amended). Wraparound definition: for every `SLOTS > 0` with `4*SLOTS`
representable in a 32-bit `int` and every `int16_t` counter value `v`, except
`v = -32768` when `SLOTS = 16384`, `yawConstrain` changes only the counter and
maps `v` to `v - 4*SLOTS` if `v > 2*SLOTS`, to `v + 4*SLOTS` if
`v <= -2*SLOTS`, and to `v` otherwise; so it is the identity on every
in-window `v`. -/
theorem C5_yawConstrain_def (cfg : YawConfig) (s : YawState)
    (hS : 0 < cfg.DISC_SLOTS) (hmax : 4 * cfg.DISC_SLOTS ≤ 2147483647)
    (hv : isInt16 s.yawCounter)
    (hx : ¬ (cfg.DISC_SLOTS = 16384 ∧ s.yawCounter = -32768)) :
    yawConstrain cfg s =
      { s with yawCounter :=
          if s.yawCounter > 2 * cfg.DISC_SLOTS then s.yawCounter - 4 * cfg.DISC_SLOTS
          else if s.yawCounter ≤ -2 * cfg.DISC_SLOTS then s.yawCounter + 4 * cfg.DISC_SLOTS
          else s.yawCounter } ∧
    (inWindow cfg s.yawCounter → yawConstrain cfg s = s) := by
  unfold isInt16 at hv
  refine ⟨?_, yawConstrain_of_inWindow cfg hS hmax s⟩
  rw [yawConstrain_eq, constrainVal_of_fits cfg hS hmax]
  by_cases h1 : s.yawCounter > cfg.DISC_SLOTS * 2
  · have h1' : s.yawCounter > 2 * cfg.DISC_SLOTS := by omega
    have e : wrap16 (s.yawCounter - cfg.DISC_SLOTS * 4) = s.yawCounter - 4 * cfg.DISC_SLOTS := by
      rw [wrap16_of_isInt16 (by unfold isInt16; omega)]; omega
    simp only [h1, h1', if_true, e]
  · have h1' : ¬ s.yawCounter > 2 * cfg.DISC_SLOTS := by omega
    by_cases h2 : s.yawCounter ≤ -2 * cfg.DISC_SLOTS
    · have e : wrap16 (s.yawCounter + cfg.DISC_SLOTS * 4) =
          s.yawCounter + 4 * cfg.DISC_SLOTS := by
        rw [wrap16_of_isInt16 (by unfold isInt16; omega)]; omega
      simp only [h1, h1', h2, if_true, if_false, e]
    · simp only [h1, h1', h2, if_false]

theorem C5_yawConstrain_def_witness :
    (0 : Int) < 90 ∧ (4 * 90 : Int) ≤ 2147483647 ∧ isInt16 181 ∧
    ¬ ((90 : Int) = 16384 ∧ (181 : Int) = -32768) ∧
    yawConstrain ⟨90, 360⟩ ⟨181, 0, false, false, false, false⟩ =
      ⟨-179, 0, false, false, false, false⟩ :=
  ⟨by decide, by decide, by decide, by decide,
    (C5_yawConstrain_def ⟨90, 360⟩ ⟨181, 0, false, false, false, false⟩
      (by decide) (by decide) (by decide) (by decide)).1⟩

/-- C6 (counterexample). With `DISC_SLOTS = 1073741823` and
`DEGREES_PER_REV = 360`, one channel B event from power-on brings the counter to
`1`; the `int` divisor `4 * DISC_SLOTS` wraps to `-4` and `getYawDegrees`
returns `-90`, while `1 * 360 / (4 * 1073741823)` is `0`. -/
theorem C6_divisor_wraps_at_large_slots :
    (runEvents ⟨1073741823, 360⟩ [GPIO_PIN_1] powerOn).yawCounter = 1 ∧
    inWindow ⟨1073741823, 360⟩ (runEvents ⟨1073741823, 360⟩ [GPIO_PIN_1] powerOn).yawCounter ∧
    getYawDegrees ⟨1073741823, 360⟩ (runEvents ⟨1073741823, 360⟩ [GPIO_PIN_1] powerOn) = -90 ∧
    Int.tdiv ((1 : Int) * 360) (4 * 1073741823) = 0 ∧
    getYawDegrees ⟨1073741823, 360⟩ (runEvents ⟨1073741823, 360⟩ [GPIO_PIN_1] powerOn) ≠
      Int.tdiv ((runEvents ⟨1073741823, 360⟩ [GPIO_PIN_1] powerOn).yawCounter * 360)
        (4 * 1073741823) := by
  decide

/-- C6 (amended). Degree conversion: for every `SLOTS > 0` with `4*SLOTS`
representable in a 32-bit `int`, with `DEGREES_PER_REV = 360`, `getYawDegrees`
returns `v * DEGREES_PER_REV / (4 * SLOTS)`, multiplication first and division
truncating toward zero, for every counter value `v` the decoder reaches from
`yawCounter = 0`, for every in-window `int16_t` value `v`, and for every
`int16_t` value once `SLOTS >= 90`. For `SLOTS = 90` it returns `180` at
`yawCounter = 180` and `-179` at `yawCounter = -179`; for `SLOTS = 112` it
returns `0` at `yawCounter = -1` (truncation, not floor). -/
theorem C6_degree_conversion (cfg : YawConfig) (hS : 0 < cfg.DISC_SLOTS)
    (hmax : 4 * cfg.DISC_SLOTS ≤ 2147483647) (hD : cfg.DEGREES_PER_REV = 360) :
    (∀ (events : List Nat) (s : YawState), s.yawCounter = 0 →
      getYawDegrees cfg (runEvents cfg events s) =
        Int.tdiv ((runEvents cfg events s).yawCounter * cfg.DEGREES_PER_REV)
          (4 * cfg.DISC_SLOTS)) ∧
    (∀ s : YawState, isInt16 s.yawCounter → (inWindow cfg s.yawCounter ∨ 90 ≤ cfg.DISC_SLOTS) →
      getYawDegrees cfg s =
        Int.tdiv (s.yawCounter * cfg.DEGREES_PER_REV) (4 * cfg.DISC_SLOTS)) ∧
    getYawDegrees ⟨90, 360⟩ ⟨2 * 90, 0, false, false, false, false⟩ = 180 ∧
    getYawDegrees ⟨90, 360⟩ ⟨-2 * 90 + 1, 0, false, false, false, false⟩ = -179 ∧
    getYawDegrees ⟨112, 360⟩ ⟨-1, 0, false, false, false, false⟩ = 0 := by
  refine ⟨?_, ?_, by decide, by decide, by decide⟩
  · intro events s h0
    have hi : isInt16 s.yawCounter := by rw [h0]; decide
    have hr := runEvents_isInt16 cfg events s hi
    rw [hD]
    by_cases hsm : cfg.DISC_SLOTS ≤ 16383
    · have hw : inWindow cfg s.yawCounter := by unfold inWindow; rw [h0]; omega
      exact getYawDegrees_exact cfg _ hS hmax hD hr
        (Or.inl (runEvents_inWindow cfg hS (by omega) events s hw))
    · exact getYawDegrees_exact cfg _ hS hmax hD hr (Or.inr (by omega))
  · intro s hv hr
    rw [hD]
    exact getYawDegrees_exact cfg s hS hmax hD hv hr

theorem C6_degree_conversion_witness :
    (0 : Int) < 112 ∧ (4 * 112 : Int) ≤ 2147483647 ∧ (360 : Int) = 360 ∧
    isInt16 100 ∧ inWindow ⟨112, 360⟩ 100 ∧
    getYawDegrees ⟨112, 360⟩ ⟨100, 0, false, false, false, false⟩ =
      Int.tdiv ((100 : Int) * 360) (4 * 112) :=
  ⟨by decide, by decide, rfl, by decide, by decide,
    (C6_degree_conversion ⟨112, 360⟩ (by decide) (by decide) rfl).2.1
      ⟨100, 0, false, false, false, false⟩ (by decide) (Or.inl (by decide))⟩

/-- C7 (counterexample). With `DISC_SLOTS = 1073741825` and
`DEGREES_PER_REV = 360` the `int` divisor `4 * DISC_SLOTS` wraps to `4`; the
in-window counter values `364 <= 365` give `32760` and `-32686`. -/
theorem C7_not_monotone_at_large_slots :
    (0 : Int) < 1073741825 ∧ isInt16 364 ∧ isInt16 365 ∧
    inWindow ⟨1073741825, 360⟩ 364 ∧ inWindow ⟨1073741825, 360⟩ 365 ∧ (364 : Int) ≤ 365 ∧
    getYawDegrees ⟨1073741825, 360⟩ ⟨364, 0, false, false, false, false⟩ = 32760 ∧
    getYawDegrees ⟨1073741825, 360⟩ ⟨365, 0, false, false, false, false⟩ = -32686 ∧
    ¬ (getYawDegrees ⟨1073741825, 360⟩ ⟨364, 0, false, false, false, false⟩ ≤
        getYawDegrees ⟨1073741825, 360⟩ ⟨365, 0, false, false, false, false⟩) := by
  decide

/-- C7 (amended). Conversion monotonicity: for every `SLOTS > 0` with `4*SLOTS`
representable in a 32-bit `int`, with `DEGREES_PER_REV = 360`, and all
`int16_t` counter values `v <= w` inside one wraparound window,
`getYawDegrees` at `v` is at most `getYawDegrees` at `w`. -/
theorem C7_degrees_monotone (cfg : YawConfig) (s t : YawState)
    (hS : 0 < cfg.DISC_SLOTS) (hmax : 4 * cfg.DISC_SLOTS ≤ 2147483647)
    (hD : cfg.DEGREES_PER_REV = 360)
    (hvi : isInt16 s.yawCounter) (hwi : isInt16 t.yawCounter)
    (hv : inWindow cfg s.yawCounter) (hw : inWindow cfg t.yawCounter)
    (hle : s.yawCounter ≤ t.yawCounter) :
    getYawDegrees cfg s ≤ getYawDegrees cfg t := by
  rw [(getYawDegrees_of_inWindow cfg s hS hmax hD hvi hv).1,
    (getYawDegrees_of_inWindow cfg t hS hmax hD hwi hw).1]
  exact tdiv_mono _ _ _ (by omega) (by omega)

theorem C7_degrees_monotone_witness :
    (0 : Int) < 112 ∧ (4 * 112 : Int) ≤ 2147483647 ∧ (360 : Int) = 360 ∧
    isInt16 (-5) ∧ isInt16 7 ∧ inWindow ⟨112, 360⟩ (-5) ∧ inWindow ⟨112, 360⟩ 7 ∧
    (-5 : Int) ≤ 7 ∧
    getYawDegrees ⟨112, 360⟩ ⟨-5, 0, false, false, false, false⟩ ≤
      getYawDegrees ⟨112, 360⟩ ⟨7, 0, false, false, false, false⟩ :=
  ⟨by decide, by decide, rfl, by decide, by decide, by decide, by decide, by decide,
    C7_degrees_monotone ⟨112, 360⟩ ⟨-5, 0, false, false, false, false⟩
      ⟨7, 0, false, false, false, false⟩ (by decide) (by decide) rfl (by decide) (by decide)
      (by decide) (by decide) (by decide)⟩

/-- C8 (counterexample). With `DISC_SLOTS = 16384`, from `yawCounter = 0` and
`aState = bState = false`, the `32768` alternating events `A, B, A, B, ...`
all decrement; the counter reaches `-32768 = -2*SLOTS`, which `yawConstrain`
cannot bring back into the window (`-32768 + 65536` is not representable), and
`getYawDegrees` returns `-180`. With `DISC_SLOTS = 1073741825` the `int`
divisor `4 * DISC_SLOTS` wraps to `4`: the in-window counter `365` gives
`-32686`, and one channel B event from power-on already gives `-270`. -/
theorem C8_minus_180_reached_at_16384 :
    ((0 : Int) < 16384 ∧ powerOn.yawCounter = 0 ∧
      (runEvents ⟨16384, 360⟩ (alternating true 32768) powerOn).yawCounter = -32768 ∧
      getYawDegrees ⟨16384, 360⟩ (runEvents ⟨16384, 360⟩ (alternating true 32768) powerOn)
        = -180 ∧
      ¬ (-180 < getYawDegrees ⟨16384, 360⟩
          (runEvents ⟨16384, 360⟩ (alternating true 32768) powerOn))) ∧
    ((0 : Int) < 1073741825 ∧ isInt16 365 ∧ inWindow ⟨1073741825, 360⟩ 365 ∧
      getYawDegrees ⟨1073741825, 360⟩ ⟨365, 0, false, false, false, false⟩ = -32686 ∧
      getYawDegrees ⟨1073741825, 360⟩ (runEvents ⟨1073741825, 360⟩ [GPIO_PIN_1] powerOn)
        = -270 ∧
      ¬ (-180 < getYawDegrees ⟨1073741825, 360⟩
          (runEvents ⟨1073741825, 360⟩ [GPIO_PIN_1] powerOn))) := by
  have h : (runEvents ⟨16384, 360⟩ (alternating true 32768) powerOn).yawCounter = -32768 := by
    rw [runEvents_alternating_yawCounter, show (32768 : Nat) = 32767 + 1 from rfl,
      iterate_of_large _ (by decide) (by decide)]
    decide
  have g : getYawDegrees ⟨16384, 360⟩
      (runEvents ⟨16384, 360⟩ (alternating true 32768) powerOn) = -180 := by
    unfold getYawDegrees
    rw [h]
    decide
  refine ⟨⟨by decide, rfl, h, g, ?_⟩, by decide⟩
  rw [g]
  decide

/-- C8 (amended). Degree range: for every `SLOTS > 0` with `4*SLOTS`
representable in a 32-bit `int`, with `DEGREES_PER_REV = 360`, and every
`int16_t` counter in the window `-2*SLOTS < yawCounter <= 2*SLOTS`,
`getYawDegrees` returns `d` with `-180 < d <= 180`; hence, for every such
`SLOTS` other than `16384`, after every sequence of decoder events from
`yawCounter = 0` the reported yaw lies in `(-180, 180]`. -/
theorem C8_degree_range (cfg : YawConfig) (hS : 0 < cfg.DISC_SLOTS)
    (hmax : 4 * cfg.DISC_SLOTS ≤ 2147483647) (hD : cfg.DEGREES_PER_REV = 360) :
    (∀ s : YawState, isInt16 s.yawCounter → inWindow cfg s.yawCounter →
      -180 < getYawDegrees cfg s ∧ getYawDegrees cfg s ≤ 180) ∧
    (cfg.DISC_SLOTS ≠ 16384 → ∀ (events : List Nat) (s : YawState), s.yawCounter = 0 →
      -180 < getYawDegrees cfg (runEvents cfg events s) ∧
      getYawDegrees cfg (runEvents cfg events s) ≤ 180) := by
  refine ⟨fun s hv hw => (getYawDegrees_of_inWindow cfg s hS hmax hD hv hw).2, ?_⟩
  intro hne events s h0
  have hi : isInt16 s.yawCounter := by rw [h0]; decide
  refine (getYawDegrees_of_inWindow cfg _ hS hmax hD (runEvents_isInt16 cfg events s hi) ?_).2
  apply runEvents_inWindow_of_ne cfg hS hmax hne events s hi
  unfold inWindow; rw [h0]; omega

theorem C8_degree_range_witness :
    (0 : Int) < 90 ∧ (4 * 90 : Int) ≤ 2147483647 ∧ (360 : Int) = 360 ∧ (90 : Int) ≠ 16384 ∧
    (∀ (events : List Nat) (s : YawState), s.yawCounter = 0 →
      -180 < getYawDegrees ⟨90, 360⟩ (runEvents ⟨90, 360⟩ events s) ∧
      getYawDegrees ⟨90, 360⟩ (runEvents ⟨90, 360⟩ events s) ≤ 180) :=
  ⟨by decide, by decide, rfl, by decide,
    (C8_degree_range ⟨90, 360⟩ (by decide) (by decide) rfl).2 (by decide)⟩

/-- C9. Reference capture: for every state, one run of `refYawIntHandler` makes
`getRefYaw` return exactly the value `getYawDegrees` returns for the
`yawCounter` at the moment of the call, whatever reference was stored before;
this includes a state reached by `enableRefYawInt` and further decoder events
after an earlier capture. With `SLOTS = 90` and `yawCounter = 42` (42 degrees)
`getRefYaw` returns `42` afterwards, and with `SLOTS = 112` and
`yawCounter = 53` (42 degrees) as well. -/
theorem C9_reference_capture (cfg : YawConfig) (s : YawState) :
    getRefYaw (refYawIntHandler cfg s) = getYawDegrees cfg s ∧
    (∀ events : List Nat,
      getRefYaw (refYawIntHandler cfg
          (runEvents cfg events (enableRefYawInt (refYawIntHandler cfg s)))) =
        getYawDegrees cfg (runEvents cfg events (enableRefYawInt (refYawIntHandler cfg s)))) ∧
    getRefYaw (refYawIntHandler ⟨90, 360⟩ ⟨42, 7, true, false, true, true⟩) = 42 ∧
    getRefYaw (refYawIntHandler ⟨112, 360⟩ ⟨53, -100, false, true, true, true⟩) = 42 := by
  refine ⟨rfl, fun _ => rfl, by decide, by decide⟩

/-- C10 (counterexample). With `SLOTS = 90`: a capture at `yawCounter = 42`
stores `42` and disables the interrupt; after one decoder run (channel A,
counter `41`) and no `enableRefYawInt`, a further `refYawIntHandler` call
stores `41`. -/
theorem C10_second_capture_overwrites :
    getRefYaw (refYawIntHandler ⟨90, 360⟩ ⟨42, 0, false, false, false, true⟩) = 42 ∧
    (GPIOBIntHandler ⟨90, 360⟩ GPIO_PIN_0
      (refYawIntHandler ⟨90, 360⟩ ⟨42, 0, false, false, false, true⟩)).pc4IntEnabled = false ∧
    getRefYaw (refYawIntHandler ⟨90, 360⟩ (GPIOBIntHandler ⟨90, 360⟩ GPIO_PIN_0
      (refYawIntHandler ⟨90, 360⟩ ⟨42, 0, false, false, false, true⟩))) = 41 ∧
    getRefYaw (refYawIntHandler ⟨90, 360⟩ (GPIOBIntHandler ⟨90, 360⟩ GPIO_PIN_0
      (refYawIntHandler ⟨90, 360⟩ ⟨42, 0, false, false, false, true⟩))) ≠
    getRefYaw (GPIOBIntHandler ⟨90, 360⟩ GPIO_PIN_0
      (refYawIntHandler ⟨90, 360⟩ ⟨42, 0, false, false, false, true⟩)) := by
  decide

/-- C10 (amended). `refYawIntHandler` does not test whether the latch is armed:
in every state, Disarmed included, a further call stores `getYawDegrees` of the
current `yawCounter` in `refYaw`; so it leaves `refYaw` unchanged exactly when
the current yaw in degrees equals the stored reference, and a call that
directly follows a capture changes nothing at all. -/
theorem C10_capture_while_disarmed (cfg : YawConfig) (s : YawState) :
    (refYawIntHandler cfg s).refYaw = getYawDegrees cfg s ∧
    ((refYawIntHandler cfg s).refYaw = s.refYaw ↔ getYawDegrees cfg s = s.refYaw) ∧
    refYawIntHandler cfg (refYawIntHandler cfg s) = refYawIntHandler cfg s := by
  refine ⟨rfl, Iff.rfl, rfl⟩

/-- C11. Latch state machine, with ReferenceArmed the enable bit of the port C
pin 4 interrupt: in every state `refYawIntHandler` ends with the latch Disarmed
and `refYawFlag = true`, `enableRefYawInt` ends with the latch Armed, no decoder
event changes the latch, and no other function of `yaw.c` changes it either. -/
theorem C11_latch_state_machine (cfg : YawConfig) (s : YawState) :
    referenceArmed (refYawIntHandler cfg s) = false ∧
    (refYawIntHandler cfg s).refYawFlag = true ∧
    referenceArmed (enableRefYawInt s) = true ∧
    (∀ status : Nat, referenceArmed (GPIOBIntHandler cfg status s) = referenceArmed s) ∧
    (∀ events : List Nat, referenceArmed (runEvents cfg events s) = referenceArmed s) ∧
    (∀ c : YawCall, c ≠ YawCall.referenceEdge → c ≠ YawCall.rearm →
      referenceArmed (c.run cfg s) = referenceArmed s) := by
  refine ⟨rfl, rfl, rfl, fun status => (GPIOBIntHandler_frame cfg status s).2.2,
    fun events => (runEvents_frame cfg events s).2.2, ?_⟩
  intro c h1 h2
  cases c with
  | portBSetup => rfl
  | portCSetup => rfl
  | readChannels portA portB => rfl
  | decoderEvent status => exact (GPIOBIntHandler_frame cfg status s).2.2
  | referenceEdge => exact absurd rfl h1
  | constrain =>
    show (yawConstrain cfg s).pc4IntEnabled = s.pc4IntEnabled
    rw [yawConstrain_eq]
  | readYawDegrees => rfl
  | readRefYaw => rfl
  | rearm => exact absurd rfl h2

theorem C11_latch_state_machine_witness :
    YawCall.readChannels 1 2 ≠ YawCall.referenceEdge ∧
    YawCall.readChannels 1 2 ≠ YawCall.rearm ∧
    referenceArmed ((YawCall.readChannels 1 2).run ⟨90, 360⟩ (enableRefYawInt powerOn)) =
      referenceArmed (enableRefYawInt powerOn) :=
  ⟨by decide, by decide,
    (C11_latch_state_machine ⟨90, 360⟩ (enableRefYawInt powerOn)).2.2.2.2.2
      (YawCall.readChannels 1 2) (by decide) (by decide)⟩

/-- C12. Rearm frame: in every state `enableRefYawInt` sets ReferenceArmed to
true and leaves `refYawFlag`, `refYaw`, `yawCounter`, `aState` and `bState`
unchanged. -/
theorem C12_rearm_frame (s : YawState) :
    referenceArmed (enableRefYawInt s) = true ∧
    (enableRefYawInt s).refYawFlag = s.refYawFlag ∧
    (enableRefYawInt s).refYaw = s.refYaw ∧
    getRefYaw (enableRefYawInt s) = getRefYaw s ∧
    (enableRefYawInt s).yawCounter = s.yawCounter ∧
    (enableRefYawInt s).aState = s.aState ∧
    (enableRefYawInt s).bState = s.bState :=
  ⟨rfl, rfl, rfl, rfl, rfl, rfl, rfl⟩

/-- C13. No capture yet: starting from a state with `yawCounter = 0`,
`refYaw = 0` and `refYawFlag = false`, after every finite sequence of calls of
functions of `yaw.c`, decoder events and `enableRefYawInt` among them, that
contains no `refYawIntHandler`, `getRefYaw` returns `0` and `refYawFlag` is
still `false`. -/
theorem C13_no_capture_yet (cfg : YawConfig) (calls : List YawCall) (s : YawState)
    (_h0 : s.yawCounter = 0) (h1 : s.refYaw = 0) (h2 : s.refYawFlag = false)
    (hn : YawCall.referenceEdge ∉ calls) :
    getRefYaw (runCalls cfg calls s) = 0 ∧ (runCalls cfg calls s).refYawFlag = false := by
  obtain ⟨g1, g2⟩ := runCalls_reference cfg calls s hn
  unfold getRefYaw
  rw [g1, g2]
  exact ⟨h1, h2⟩

theorem C13_no_capture_yet_witness :
    powerOn.yawCounter = 0 ∧ powerOn.refYaw = 0 ∧ powerOn.refYawFlag = false ∧
    YawCall.referenceEdge ∉
      [YawCall.decoderEvent 1, YawCall.rearm, YawCall.decoderEvent 2, YawCall.decoderEvent 1] ∧
    getRefYaw (runCalls ⟨90, 360⟩
      [YawCall.decoderEvent 1, YawCall.rearm, YawCall.decoderEvent 2, YawCall.decoderEvent 1]
      powerOn) = 0 ∧
    (runCalls ⟨90, 360⟩
      [YawCall.decoderEvent 1, YawCall.rearm, YawCall.decoderEvent 2, YawCall.decoderEvent 1]
      powerOn).refYawFlag = false :=
  ⟨rfl, rfl, rfl, by decide,
    C13_no_capture_yet ⟨90, 360⟩
      [YawCall.decoderEvent 1, YawCall.rearm, YawCall.decoderEvent 2, YawCall.decoderEvent 1]
      powerOn rfl rfl rfl (by decide)⟩

/-- C14. Writer separation: in every state a decoder event leaves `refYaw` and
`refYawFlag` unchanged, `refYawIntHandler` leaves `yawCounter`, `aState` and
`bState` unchanged, and the calls of `getYawDegrees` and `getRefYaw` leave the
whole state unchanged. -/
theorem C14_writer_separation (cfg : YawConfig) (s : YawState) :
    (∀ status : Nat, (GPIOBIntHandler cfg status s).refYaw = s.refYaw ∧
      (GPIOBIntHandler cfg status s).refYawFlag = s.refYawFlag) ∧
    (refYawIntHandler cfg s).yawCounter = s.yawCounter ∧
    (refYawIntHandler cfg s).aState = s.aState ∧
    (refYawIntHandler cfg s).bState = s.bState ∧
    YawCall.readYawDegrees.run cfg s = s ∧
    YawCall.readRefYaw.run cfg s = s :=
  ⟨fun status => ⟨(GPIOBIntHandler_frame cfg status s).1, (GPIOBIntHandler_frame cfg status s).2.1⟩,
    rfl, rfl, rfl, rfl, rfl⟩

/-- C15 (counterexample). With `DISC_SLOTS = 16385` the counter value `32767`
is in the window `(-32770, 32770]`; from `aState = false`, `bState = true` one
channel A event increments. The unconstrained sum is `32768`, which is its own
representative in the window, but the `int16_t` counter holds `-32768`. -/
theorem C15_int16_wrap_is_not_signed_modulo :
    (0 : Int) < 16385 ∧ isInt16 32767 ∧ inWindow ⟨16385, 360⟩ 32767 ∧
    (unconstrainedRun [GPIO_PIN_0] ⟨32767, 0, false, false, true, false⟩).yawCounter = 32768 ∧
    specSignedModulo ⟨16385, 360⟩
      (unconstrainedRun [GPIO_PIN_0] ⟨32767, 0, false, false, true, false⟩).yawCounter = 32768 ∧
    (runEvents ⟨16385, 360⟩ [GPIO_PIN_0] ⟨32767, 0, false, false, true, false⟩).yawCounter
      = -32768 ∧
    (runEvents ⟨16385, 360⟩ [GPIO_PIN_0] ⟨32767, 0, false, false, true, false⟩).yawCounter ≠
      specSignedModulo ⟨16385, 360⟩
        (unconstrainedRun [GPIO_PIN_0] ⟨32767, 0, false, false, true, false⟩).yawCounter := by
  decide

/-- C15 (amended). Signed-modulo refinement: for every `SLOTS > 0` with
`2*SLOTS+1` representable in `int16_t`, every in-window starting counter and
every finite sequence of decoder events, the `yawCounter` produced by
`GPIOBIntHandler` equals the representative in `(-2*SLOTS, 2*SLOTS]` of the
unconstrained sum `v0 + increments - decrements` modulo `4*SLOTS`; that
representative is the only in-window value congruent to the sum; and the one
adjustment per event suffices: the counter is in the window and a further
`yawConstrain` changes nothing. -/
theorem C15_signed_modulo (cfg : YawConfig) (hS : 0 < cfg.DISC_SLOTS)
    (h16 : 2 * cfg.DISC_SLOTS + 1 ≤ 32767) (s : YawState)
    (hw : inWindow cfg s.yawCounter) (events : List Nat) :
    (runEvents cfg events s).yawCounter =
      specSignedModulo cfg (unconstrainedRun events s).yawCounter ∧
    (∀ y : Int, inWindow cfg y →
      (∃ k : Int, y = (unconstrainedRun events s).yawCounter + k * (4 * cfg.DISC_SLOTS)) →
      y = (runEvents cfg events s).yawCounter) ∧
    inWindow cfg (runEvents cfg events s).yawCounter ∧
    yawConstrain cfg (runEvents cfg events s) = runEvents cfg events s := by
  obtain ⟨_, _, hin, k, hk⟩ :=
    runEvents_congruent cfg hS (by omega) events s s rfl rfl hw ⟨0, by ring⟩
  have e := specSignedModulo_unique cfg _ _ k hin hk
  refine ⟨e.symm, ?_, hin, yawConstrain_of_inWindow cfg hS (by omega) _ hin⟩
  intro y hy ⟨j, hj⟩
  rw [← e]
  exact (specSignedModulo_unique cfg _ _ j hy hj).symm

theorem C15_signed_modulo_witness :
    (0 : Int) < 90 ∧ (2 * 90 + 1 : Int) ≤ 32767 ∧ inWindow ⟨90, 360⟩ 180 ∧
    (runEvents ⟨90, 360⟩ [GPIO_PIN_0, GPIO_PIN_1] ⟨180, 0, false, false, true, false⟩).yawCounter =
      specSignedModulo ⟨90, 360⟩
        (unconstrainedRun [GPIO_PIN_0, GPIO_PIN_1] ⟨180, 0, false, false, true, false⟩).yawCounter :=
  ⟨by decide, by decide, by decide,
    (C15_signed_modulo ⟨90, 360⟩ (by decide) (by decide) ⟨180, 0, false, false, true, false⟩
      (by decide) [GPIO_PIN_0, GPIO_PIN_1]).1⟩

/-- C16. Spec scenario: with `SLOTS = 90`, from `aState = false`,
`bState = false`, `yawCounter = 0`, the events A, B, A, A give the counter
values `-1`, `-2`, `-3`, `-2` in turn, one unit per event, and end with
`aState = true`, `bState = true`. -/
theorem C16_spec_scenario :
    powerOn.aState = false ∧ powerOn.bState = false ∧ powerOn.yawCounter = 0 ∧
    (runEvents ⟨90, 360⟩ [GPIO_PIN_0] powerOn).yawCounter = -1 ∧
    (runEvents ⟨90, 360⟩ [GPIO_PIN_0, GPIO_PIN_1] powerOn).yawCounter = -2 ∧
    (runEvents ⟨90, 360⟩ [GPIO_PIN_0, GPIO_PIN_1, GPIO_PIN_0] powerOn).yawCounter = -3 ∧
    (runEvents ⟨90, 360⟩ [GPIO_PIN_0, GPIO_PIN_1, GPIO_PIN_0, GPIO_PIN_0] powerOn).yawCounter
      = -2 ∧
    (runEvents ⟨90, 360⟩ [GPIO_PIN_0, GPIO_PIN_1, GPIO_PIN_0, GPIO_PIN_0] powerOn).aState
      = true ∧
    (runEvents ⟨90, 360⟩ [GPIO_PIN_0, GPIO_PIN_1, GPIO_PIN_0, GPIO_PIN_0] powerOn).bState
      = true := by
  decide

/-- C17. Fixed-width arithmetic: for every `SLOTS` with `1 <= SLOTS <= 16383`
and every `int16_t` counter in the window, the stepped values `yawCounter + 1`
and `yawCounter - 1` and the adjusted values stay in the `int16_t` range, so
the counter `GPIOBIntHandler` stores is the mathematical result of the step and
the adjustment; the product `yawCounter * 360` fits a 32-bit `int`; and the
quotient fits `int16_t`, so `getYawDegrees` returns the mathematical
quotient. -/
theorem C17_fixed_width (cfg : YawConfig) (s : YawState)
    (hS1 : 1 ≤ cfg.DISC_SLOTS) (hS2 : cfg.DISC_SLOTS ≤ 16383)
    (hv : isInt16 s.yawCounter) (hw : inWindow cfg s.yawCounter) :
    (isInt16 (s.yawCounter + 1) ∧ wrap16 (s.yawCounter + 1) = s.yawCounter + 1) ∧
    (isInt16 (s.yawCounter - 1) ∧ wrap16 (s.yawCounter - 1) = s.yawCounter - 1) ∧
    (s.yawCounter + 1 > cfg.DISC_SLOTS * 2 →
      isInt16 (s.yawCounter + 1 - cfg.DISC_SLOTS * 4) ∧
      wrap16 (s.yawCounter + 1 - cfg.DISC_SLOTS * 4) = s.yawCounter + 1 - cfg.DISC_SLOTS * 4) ∧
    (s.yawCounter - 1 ≤ -2 * cfg.DISC_SLOTS →
      isInt16 (s.yawCounter - 1 + cfg.DISC_SLOTS * 4) ∧
      wrap16 (s.yawCounter - 1 + cfg.DISC_SLOTS * 4) = s.yawCounter - 1 + cfg.DISC_SLOTS * 4) ∧
    (∀ status : Nat, (GPIOBIntHandler cfg status s).yawCounter =
      if (unconstrainedStep status s).yawCounter > cfg.DISC_SLOTS * 2 then
        (unconstrainedStep status s).yawCounter - cfg.DISC_SLOTS * 4
      else if (unconstrainedStep status s).yawCounter ≤ -2 * cfg.DISC_SLOTS then
        (unconstrainedStep status s).yawCounter + cfg.DISC_SLOTS * 4
      else (unconstrainedStep status s).yawCounter) ∧
    isInt32 (s.yawCounter * 360) ∧
    isInt16 (Int.tdiv (s.yawCounter * 360) (4 * cfg.DISC_SLOTS)) ∧
    (cfg.DEGREES_PER_REV = 360 →
      getYawDegrees cfg s = Int.tdiv (s.yawCounter * 360) (4 * cfg.DISC_SLOTS)) := by
  have hw' := hw
  unfold inWindow at hw'
  have i1 : isInt16 (s.yawCounter + 1) := by unfold isInt16; omega
  have i2 : isInt16 (s.yawCounter - 1) := by unfold isInt16; omega
  have hq1 : Int.tdiv (s.yawCounter * 360) (4 * cfg.DISC_SLOTS) ≤ 180 :=
    tdiv_le_of_le_mul _ _ _ (by omega) (by omega)
  have hq2 : -180 < Int.tdiv (s.yawCounter * 360) (4 * cfg.DISC_SLOTS) :=
    lt_tdiv_of_mul_lt _ _ 180 (by omega) (by omega) (by omega)
  refine ⟨⟨i1, wrap16_of_isInt16 i1⟩, ⟨i2, wrap16_of_isInt16 i2⟩, ?_, ?_, ?_, ?_, ?_, ?_⟩
  · intro h
    have i : isInt16 (s.yawCounter + 1 - cfg.DISC_SLOTS * 4) := by unfold isInt16; omega
    exact ⟨i, wrap16_of_isInt16 i⟩
  · intro h
    have i : isInt16 (s.yawCounter - 1 + cfg.DISC_SLOTS * 4) := by unfold isInt16; omega
    exact ⟨i, wrap16_of_isInt16 i⟩
  · intro status
    rw [GPIOBIntHandler_status, unconstrainedStep_status]
    cases stepsUp (decide (status &&& GPIO_PIN_0 ≠ 0)) s
    · rw [stepVal_down_of_inWindow cfg (by omega) hS2 _ hw]
      simp only [Bool.false_eq_true, if_false]
      split_ifs <;> omega
    · rw [stepVal_up_of_inWindow cfg (by omega) hS2 _ hw]
      simp only [if_true]
      split_ifs <;> omega
  · unfold isInt16 at hv
    unfold isInt32
    omega
  · unfold isInt16; omega
  · intro hD
    exact (getYawDegrees_of_inWindow cfg s (by omega) (by omega) hD hv hw).1

theorem C17_fixed_width_witness :
    (1 : Int) ≤ 16383 ∧ (16383 : Int) ≤ 16383 ∧ isInt16 32766 ∧ inWindow ⟨16383, 360⟩ 32766 ∧
    (GPIOBIntHandler ⟨16383, 360⟩ GPIO_PIN_0 ⟨32766, 0, false, false, true, false⟩).yawCounter =
      (if (unconstrainedStep GPIO_PIN_0 ⟨32766, 0, false, false, true, false⟩).yawCounter
          > 16383 * 2 then
        (unconstrainedStep GPIO_PIN_0 ⟨32766, 0, false, false, true, false⟩).yawCounter - 16383 * 4
      else if (unconstrainedStep GPIO_PIN_0 ⟨32766, 0, false, false, true, false⟩).yawCounter
          ≤ -2 * 16383 then
        (unconstrainedStep GPIO_PIN_0 ⟨32766, 0, false, false, true, false⟩).yawCounter + 16383 * 4
      else (unconstrainedStep GPIO_PIN_0 ⟨32766, 0, false, false, true, false⟩).yawCounter) ∧
    isInt32 ((32766 : Int) * 360) :=
  ⟨by decide, by decide, by decide, by decide,
    (C17_fixed_width ⟨16383, 360⟩ ⟨32766, 0, false, false, true, false⟩
      (by decide) (by decide) (by decide) (by decide)).2.2.2.2.1 GPIO_PIN_0,
    (C17_fixed_width ⟨16383, 360⟩ ⟨32766, 0, false, false, true, false⟩
      (by decide) (by decide) (by decide) (by decide)).2.2.2.2.2.1⟩

/-- C18 (counterexample). With `DISC_SLOTS = 1073741825` the `int` product
`DISC_SLOTS * 2` wraps to `-2147483646` and `DISC_SLOTS * 4` to `4`, so the
first branch of `yawConstrain` runs after every step: from power-on
(`yawCounter = 0`, in the window) two channel A events in a row end at
`yawCounter = -8`. -/
theorem C18_no_reversal_at_large_slots :
    (0 : Int) < 1073741825 ∧ isInt16 powerOn.yawCounter ∧
    inWindow ⟨1073741825, 360⟩ powerOn.yawCounter ∧
    (GPIOBIntHandler ⟨1073741825, 360⟩ GPIO_PIN_0 powerOn).yawCounter = -5 ∧
    (GPIOBIntHandler ⟨1073741825, 360⟩ GPIO_PIN_0
      (GPIOBIntHandler ⟨1073741825, 360⟩ GPIO_PIN_0 powerOn)).yawCounter = -8 ∧
    GPIOBIntHandler ⟨1073741825, 360⟩ GPIO_PIN_0
      (GPIOBIntHandler ⟨1073741825, 360⟩ GPIO_PIN_0 powerOn) ≠ powerOn := by
  decide

/-- C18 (amended). Reversal: for every `SLOTS > 0` with `4*SLOTS`
representable in a 32-bit `int`, every channel state and every in-window
`int16_t` counter, two runs of `GPIOBIntHandler` in a row for the same channel
(A then A, or B then B) restore `yawCounter`, `aState` and `bState`, the whole
state; this includes a first step that crosses the wraparound boundary. -/
theorem C18_reversal (cfg : YawConfig) (s : YawState) (isA : Bool)
    (hS : 0 < cfg.DISC_SLOTS) (hmax : 4 * cfg.DISC_SLOTS ≤ 2147483647)
    (hv : isInt16 s.yawCounter) (hw : inWindow cfg s.yawCounter) :
    GPIOBIntHandler cfg (if isA then GPIO_PIN_0 else GPIO_PIN_1)
      (GPIOBIntHandler cfg (if isA then GPIO_PIN_0 else GPIO_PIN_1) s) = s := by
  have hd : stepsUp isA (GPIOBIntHandler cfg (if isA then GPIO_PIN_0 else GPIO_PIN_1) s) =
      !(stepsUp isA s) := by
    rw [GPIOBIntHandler_channel]
    cases isA <;> cases ha : s.aState <;> cases hb : s.bState <;> simp [stepsUp, ha, hb]
  rw [GPIOBIntHandler_channel cfg isA (GPIOBIntHandler cfg _ s), hd]
  rw [GPIOBIntHandler_channel cfg isA s]
  apply YawState.eq_of_fields
  · exact stepVal_inverse cfg hS hmax _ hv hw _
  · rfl
  · rfl
  · cases isA <;> simp
  · cases isA <;> simp
  · rfl

theorem C18_reversal_witness :
    (0 : Int) < 90 ∧ (4 * 90 : Int) ≤ 2147483647 ∧ isInt16 180 ∧ inWindow ⟨90, 360⟩ 180 ∧
    (GPIOBIntHandler ⟨90, 360⟩ GPIO_PIN_0 ⟨180, 0, false, false, true, false⟩).yawCounter
      = -179 ∧
    GPIOBIntHandler ⟨90, 360⟩ GPIO_PIN_0
      (GPIOBIntHandler ⟨90, 360⟩ GPIO_PIN_0 ⟨180, 0, false, false, true, false⟩) =
      ⟨180, 0, false, false, true, false⟩ :=
  ⟨by decide, by decide, by decide, by decide, by decide,
    C18_reversal ⟨90, 360⟩ ⟨180, 0, false, false, true, false⟩ true
      (by decide) (by decide) (by decide) (by decide)⟩

/-- C19. Channel selection from the interrupt status: for every status word and
state one run of `GPIOBIntHandler` handles exactly one channel. If bit
`GPIO_PIN_0` is set it negates `aState` and keeps `bState`, also when bit
`GPIO_PIN_1` is set as well; if bit `GPIO_PIN_0` is clear it negates `bState`
and keeps `aState`, also when the status is `0`. In both cases the counter
takes exactly one step: one `int16_t` increment or decrement followed by
`yawConstrain`. -/
theorem C19_channel_selection (cfg : YawConfig) (status : Nat) (s : YawState) :
    (status &&& GPIO_PIN_0 ≠ 0 →
      (GPIOBIntHandler cfg status s).aState = (!s.aState) ∧
      (GPIOBIntHandler cfg status s).bState = s.bState) ∧
    (status &&& GPIO_PIN_0 = 0 →
      (GPIOBIntHandler cfg status s).aState = s.aState ∧
      (GPIOBIntHandler cfg status s).bState = (!s.bState)) ∧
    ((GPIOBIntHandler cfg status s).yawCounter =
        (yawConstrain cfg { s with yawCounter := wrap16 (s.yawCounter + 1) }).yawCounter ∨
     (GPIOBIntHandler cfg status s).yawCounter =
        (yawConstrain cfg { s with yawCounter := wrap16 (s.yawCounter - 1) }).yawCounter) ∧
    (GPIOBIntHandler ⟨90, 360⟩ (GPIO_PIN_0 ||| GPIO_PIN_1) powerOn =
      { powerOn with aState := true, yawCounter := -1 }) ∧
    (GPIOBIntHandler ⟨90, 360⟩ 0 powerOn = { powerOn with bState := true, yawCounter := 1 }) := by
  refine ⟨?_, ?_, ?_, by decide, by decide⟩
  · intro h
    rw [GPIOBIntHandler_status]
    simp [h]
  · intro h
    rw [GPIOBIntHandler_status]
    simp [h]
  · rw [GPIOBIntHandler_status]
    simp only [yawConstrain_eq]
    cases stepsUp (decide (status &&& GPIO_PIN_0 ≠ 0)) s
    · right; simp [stepVal]
    · left; simp [stepVal]

theorem C19_channel_selection_witness :
    (GPIO_PIN_0 ||| GPIO_PIN_1) &&& GPIO_PIN_0 ≠ 0 ∧
    (GPIOBIntHandler ⟨90, 360⟩ (GPIO_PIN_0 ||| GPIO_PIN_1) powerOn).aState = (!powerOn.aState) ∧
    (GPIOBIntHandler ⟨90, 360⟩ (GPIO_PIN_0 ||| GPIO_PIN_1) powerOn).bState = powerOn.bState :=
  ⟨by decide,
    (C19_channel_selection ⟨90, 360⟩ (GPIO_PIN_0 ||| GPIO_PIN_1) powerOn).1 (by decide)⟩

end Yaw
